import Mathlib

/-!
# Verification of the nurthure-monitor core pipeline

A shallow embedding of the ingestion / alerting / storage / aggregation
pipeline of the nurthure-monitor web application (plain JavaScript), together
with proofs and refutations of the specified properties.

JavaScript values are modelled by the inductive type `JsVal`; JavaScript
numbers by `JNum` (a finite rational, NaN, or a signed infinity).  Machine
floating point rounding is irrelevant to every property treated here, so
finite numbers are modelled as exact rationals.  Epoch-millisecond clock
values are passed explicitly (the source reads `Date.now()`).
-/

namespace Nurthure

/-- A JavaScript number: a finite value, NaN, or a signed infinity. -/
inductive JNum where
  | fin (q : ℚ)
  | nan
  | inf
  | neginf
deriving DecidableEq, Repr

/-- A JavaScript runtime value, as far as the monitor code inspects one. -/
inductive JsVal where
  | undefVal
  | null
  | bool (b : Bool)
  | num (n : JNum)
  | str (s : String)
  | obj (fields : List (String × JsVal))

/-- Property lookup in an object literal, first binding wins; a missing
property reads as `undefined`. -/
def jlookup : List (String × JsVal) → String → JsVal
  | [], _ => .undefVal
  | (k, v) :: rest, f => if k = f then v else jlookup rest f

/-- Optional-chained property access `v?.f` (also the behaviour of plain
access on a primitive, which boxes the value and finds no such property). -/
def optGet (v : JsVal) (f : String) : JsVal :=
  match v with
  | .obj l => jlookup l f
  | _ => .undefVal

/-- Plain property access `v.f`: throws a TypeError when `v` is `null` or
`undefined`, otherwise behaves as `optGet`. -/
def jgetE (v : JsVal) (f : String) : Except Unit JsVal :=
  match v with
  | .undefVal => .error ()
  | .null => .error ()
  | .obj l => .ok (jlookup l f)
  | _ => .ok .undefVal

/-- The nullish-coalescing operator `a ?? b`. -/
def nco (a b : JsVal) : JsVal :=
  match a with
  | .undefVal => b
  | .null => b
  | _ => a

/-- JavaScript truthiness. -/
def truthy : JsVal → Bool
  | .undefVal => false
  | .null => false
  | .bool b => b
  | .num (.fin q) => q != 0
  | .num .nan => false
  | .num .inf => true
  | .num .neginf => true
  | .str s => s != ""
  | .obj _ => true

/-- The logical-or operator `a || b` (value-returning). -/
def jor (a b : JsVal) : JsVal := if truthy a then a else b

/-- Conversion of a string to a number, as used by relational operators.
Conservative model of the JS rules: the empty string is 0, a string of
decimal digits is that natural number, anything else is NaN.  (No property
proved here depends on the conversion of more exotic strings.) -/
def strToNum (s : String) : JNum :=
  if s = "" then .fin 0
  else
    match s.toNat? with
    | some n => .fin (n : ℚ)
    | none => .nan

/-- `true` when the value is `null` or `undefined`. -/
def isNullish : JsVal → Bool
  | .undefVal => true
  | .null => true
  | _ => false

/-! ## The Reading normalizer (gemini.js, `ConnectionManager.normalizeReading`) -/

structure RespirationJs where
  value : JsVal
  unit : JsVal
  confidence : JsVal

structure AudioJs where
  state : JsVal
  level : JsVal

structure BodyTempJs where
  value : JsVal
  unit : JsVal

structure PostureJs where
  state : JsVal
  confidence : JsVal

structure RadarJs where
  active : JsVal
  movement : JsVal

structure EnvMeasureJs where
  value : JsVal
  unit : JsVal

structure VocJs where
  value : JsVal

structure GasJs where
  safe : JsVal

structure EnvironmentJs where
  temp : EnvMeasureJs
  co2 : EnvMeasureJs
  voc : VocJs
  gas : GasJs

/-- The canonical Reading shape produced by the normalizer. -/
structure Reading where
  timestamp : JsVal
  respiration : RespirationJs
  audio : AudioJs
  bodyTemp : BodyTempJs
  posture : PostureJs
  radar : RadarJs
  environment : EnvironmentJs

/-- `ConnectionManager.normalizeReading(data)`.  The payload is an object
(field list); `now` is the value `Date.now()` would return.  Each line
mirrors one line of the source. -/
def normalizeReading (now : ℚ) (data : List (String × JsVal)) : Reading :=
  { timestamp := jor (jlookup data "timestamp") (.num (.fin now)),
    respiration :=
      { value := nco (optGet (jlookup data "respiration") "value") .null,
        unit := jor (optGet (jlookup data "respiration") "unit") (.str "rpm"),
        confidence := nco (optGet (jlookup data "respiration") "confidence") (.num (.fin 1)) },
    audio :=
      { state := jor (optGet (jlookup data "audio") "state") (.str "unknown"),
        level := nco (optGet (jlookup data "audio") "level") (.num (.fin 0)) },
    bodyTemp :=
      { value := nco (optGet (jlookup data "body_temp") "value") .null,
        unit := jor (optGet (jlookup data "body_temp") "unit") (.str "C") },
    posture :=
      { state := jor (optGet (jlookup data "posture") "state") (.str "unknown"),
        confidence := nco (optGet (jlookup data "posture") "confidence") (.num (.fin 1)) },
    radar :=
      { active := nco (optGet (jlookup data "radar") "active") (.bool false),
        movement := nco (optGet (jlookup data "radar") "movement") (.num (.fin 0)) },
    environment :=
      { temp :=
          { value := nco (nco (optGet (optGet (jlookup data "environment") "temp") "value")
                              (optGet (jlookup data "environment") "temp")) .null,
            unit := jor (optGet (optGet (jlookup data "environment") "temp") "unit") (.str "C") },
        co2 :=
          { value := nco (nco (optGet (optGet (jlookup data "environment") "co2") "value")
                              (optGet (jlookup data "environment") "co2")) .null,
            unit := jor (optGet (optGet (jlookup data "environment") "co2") "unit") (.str "ppm") },
        voc :=
          { value := nco (nco (optGet (optGet (jlookup data "environment") "voc") "value")
                              (optGet (jlookup data "environment") "voc")) .null },
        gas :=
          { safe := nco (nco (optGet (optGet (jlookup data "environment") "gas") "safe")
                             (optGet (jlookup data "environment") "gas")) (.bool true) } } }

/-- Rebuild the JavaScript object a normalized Reading is at runtime. -/
def Reading.toJs (r : Reading) : JsVal :=
  .obj [("timestamp", r.timestamp),
        ("respiration", .obj [("value", r.respiration.value), ("unit", r.respiration.unit),
                              ("confidence", r.respiration.confidence)]),
        ("audio", .obj [("state", r.audio.state), ("level", r.audio.level)]),
        ("bodyTemp", .obj [("value", r.bodyTemp.value), ("unit", r.bodyTemp.unit)]),
        ("posture", .obj [("state", r.posture.state), ("confidence", r.posture.confidence)]),
        ("radar", .obj [("active", r.radar.active), ("movement", r.radar.movement)]),
        ("environment", .obj
          [("temp", .obj [("value", r.environment.temp.value), ("unit", r.environment.temp.unit)]),
           ("co2", .obj [("value", r.environment.co2.value), ("unit", r.environment.co2.unit)]),
           ("voc", .obj [("value", r.environment.voc.value)]),
           ("gas", .obj [("safe", r.environment.gas.safe)])])]

/-! ## C1: totality and defaulting of the normalizer -/

/-- `true` unless the value is `undefined`. -/
def isNotUndef : JsVal → Bool
  | .undefVal => false
  | _ => true

/-- No schema field of the Reading, at any nesting level, is `undefined`. -/
def readingNoUndef (r : Reading) : Bool :=
  isNotUndef r.timestamp &&
  isNotUndef r.respiration.value && isNotUndef r.respiration.unit &&
  isNotUndef r.respiration.confidence &&
  isNotUndef r.audio.state && isNotUndef r.audio.level &&
  isNotUndef r.bodyTemp.value && isNotUndef r.bodyTemp.unit &&
  isNotUndef r.posture.state && isNotUndef r.posture.confidence &&
  isNotUndef r.radar.active && isNotUndef r.radar.movement &&
  isNotUndef r.environment.temp.value && isNotUndef r.environment.temp.unit &&
  isNotUndef r.environment.co2.value && isNotUndef r.environment.co2.unit &&
  isNotUndef r.environment.voc.value && isNotUndef r.environment.gas.safe

/-- `true` when the value is a finite number or `null`. -/
def finOrNull : JsVal → Bool
  | .null => true
  | .num (.fin _) => true
  | _ => false

/-- Every numeric schema field of the Reading is a finite number or `null`. -/
def numericFinOrNull (r : Reading) : Bool :=
  finOrNull r.timestamp &&
  finOrNull r.respiration.value && finOrNull r.respiration.confidence &&
  finOrNull r.audio.level &&
  finOrNull r.bodyTemp.value &&
  finOrNull r.posture.confidence &&
  finOrNull r.radar.movement &&
  finOrNull r.environment.temp.value &&
  finOrNull r.environment.co2.value &&
  finOrNull r.environment.voc.value

/-- A payload value acceptable at a numeric position: absent, nullish or a
finite number. -/
def okNum : JsVal → Bool
  | .undefVal => true
  | .null => true
  | .num (.fin _) => true
  | _ => false

/-- The raw payload carries only finite numbers (or nothing) at the positions
the normalizer copies into numeric fields. -/
def payloadNumOk (data : List (String × JsVal)) : Bool :=
  (!truthy (jlookup data "timestamp") ||
     (match jlookup data "timestamp" with | .num (.fin _) => true | _ => false)) &&
  okNum (optGet (jlookup data "respiration") "value") &&
  okNum (optGet (jlookup data "respiration") "confidence") &&
  okNum (optGet (jlookup data "audio") "level") &&
  okNum (optGet (jlookup data "body_temp") "value") &&
  okNum (optGet (jlookup data "posture") "confidence") &&
  okNum (optGet (jlookup data "radar") "movement") &&
  okNum (optGet (optGet (jlookup data "environment") "temp") "value") &&
  (!isNullish (optGet (optGet (jlookup data "environment") "temp") "value") ||
     okNum (optGet (jlookup data "environment") "temp")) &&
  okNum (optGet (optGet (jlookup data "environment") "co2") "value") &&
  (!isNullish (optGet (optGet (jlookup data "environment") "co2") "value") ||
     okNum (optGet (jlookup data "environment") "co2")) &&
  okNum (optGet (optGet (jlookup data "environment") "voc") "value") &&
  (!isNullish (optGet (optGet (jlookup data "environment") "voc") "value") ||
     okNum (optGet (jlookup data "environment") "voc"))

lemma isNotUndef_nco (a b : JsVal) (h : isNotUndef b = true) : isNotUndef (nco a b) = true := by
  cases a <;> simp_all [nco, isNotUndef]

lemma isNotUndef_jor (a b : JsVal) (h : isNotUndef b = true) : isNotUndef (jor a b) = true := by
  unfold jor
  split
  · cases a <;> simp_all [truthy, isNotUndef]
  · exact h

lemma finOrNull_nco (a b : JsVal) (ha : okNum a = true) (hb : finOrNull b = true) :
    finOrNull (nco a b) = true := by
  cases a <;> simp_all [nco, okNum, finOrNull]
  case num n => cases n <;> simp_all [finOrNull]

lemma finOrNull_nco2 (c3 c2 : JsVal) (h3 : okNum c3 = true)
    (h2 : isNullish c3 = true → okNum c2 = true) :
    finOrNull (nco (nco c3 c2) .null) = true := by
  cases c3 <;> simp_all [nco, okNum, isNullish, finOrNull]
  · cases c2 <;> simp_all [nco, okNum, finOrNull]
    case num n => cases n <;> simp_all [finOrNull]
  · cases c2 <;> simp_all [nco, okNum, finOrNull]
    case num n => cases n <;> simp_all [finOrNull]
  case num n => cases n <;> simp_all [nco, finOrNull, okNum]

lemma nco_of_isNullish (a b : JsVal) (h : isNullish a = true) : nco a b = b := by
  cases a <;> simp_all [nco, isNullish]

lemma jor_of_not_truthy (a b : JsVal) (h : truthy a = false) : jor a b = b := by
  simp [jor, h]

lemma finOrNull_jor_now (t : JsVal) (now : ℚ)
    (h : (!truthy t || (match t with | .num (.fin _) => true | _ => false)) = true) :
    finOrNull (jor t (.num (.fin now))) = true := by
  unfold jor
  split
  · next htr =>
    simp [htr] at h
    cases t <;> simp_all [finOrNull]
    case num n => cases n <;> simp_all [finOrNull]
  · simp [finOrNull]

/-- C1 counterexample: the claim that every numeric field of
`normalizeReading`'s result is a finite number or `null` fails for the raw
payload `respiration = (value = "abc")`: the wrong-typed string is passed
through unchanged into `respiration.value`. -/
theorem normalizeReading_wrong_typed_passthrough :
    numericFinOrNull
      (normalizeReading 0 [("respiration", JsVal.obj [("value", JsVal.str "abc")])]) = false ∧
    (normalizeReading 0 [("respiration", JsVal.obj [("value", JsVal.str "abc")])]).respiration.value
      = JsVal.str "abc" := by
  constructor <;> rfl

/-- C1 (amended).  For every raw payload object — wrong-typed fields
included — `normalizeReading` returns (without throwing) a Reading none of
whose schema fields is `undefined`, with absent measurement values
defaulting to `null`, absent audio and posture states defaulting to
"unknown" and absent gas safety defaulting to `true`; and provided every
payload value reaching a numeric field is a finite number, `null`, or
absent, every numeric field of the result is a finite number or `null`
(wrong-typed payload values are passed through unchanged, so only this
last part is conditional). -/
theorem normalizeReading_total_defaults (now : ℚ) (data : List (String × JsVal)) :
    readingNoUndef (normalizeReading now data) = true ∧
    (payloadNumOk data = true → numericFinOrNull (normalizeReading now data) = true) ∧
    (isNullish (optGet (jlookup data "respiration") "value") = true →
       (normalizeReading now data).respiration.value = .null) ∧
    (isNullish (optGet (jlookup data "body_temp") "value") = true →
       (normalizeReading now data).bodyTemp.value = .null) ∧
    (isNullish (optGet (optGet (jlookup data "environment") "temp") "value") = true →
       isNullish (optGet (jlookup data "environment") "temp") = true →
       (normalizeReading now data).environment.temp.value = .null) ∧
    (isNullish (optGet (optGet (jlookup data "environment") "co2") "value") = true →
       isNullish (optGet (jlookup data "environment") "co2") = true →
       (normalizeReading now data).environment.co2.value = .null) ∧
    (isNullish (optGet (optGet (jlookup data "environment") "voc") "value") = true →
       isNullish (optGet (jlookup data "environment") "voc") = true →
       (normalizeReading now data).environment.voc.value = .null) ∧
    (truthy (optGet (jlookup data "audio") "state") = false →
       (normalizeReading now data).audio.state = .str "unknown") ∧
    (truthy (optGet (jlookup data "posture") "state") = false →
       (normalizeReading now data).posture.state = .str "unknown") ∧
    (isNullish (optGet (optGet (jlookup data "environment") "gas") "safe") = true →
       isNullish (optGet (jlookup data "environment") "gas") = true →
       (normalizeReading now data).environment.gas.safe = .bool true) := by
  refine ⟨?_, ?_, ?_, ?_, ?_, ?_, ?_, ?_, ?_, ?_⟩
  · simp only [readingNoUndef, normalizeReading, Bool.and_eq_true]
    and_intros <;> first
      | exact isNotUndef_jor _ _ rfl
      | exact isNotUndef_nco _ _ rfl
  · intro h
    simp only [payloadNumOk, Bool.and_eq_true] at h
    obtain ⟨⟨⟨⟨⟨⟨⟨⟨⟨⟨⟨⟨hts, h1⟩, h2⟩, h3⟩, h4⟩, h5⟩, h6⟩, h7⟩, h7n⟩, h8⟩, h8n⟩, h9⟩, h9n⟩ := h
    simp only [numericFinOrNull, normalizeReading, Bool.and_eq_true]
    and_intros
    · exact finOrNull_jor_now _ _ hts
    · exact finOrNull_nco _ _ h1 rfl
    · exact finOrNull_nco _ _ h2 rfl
    · exact finOrNull_nco _ _ h3 rfl
    · exact finOrNull_nco _ _ h4 rfl
    · exact finOrNull_nco _ _ h5 rfl
    · exact finOrNull_nco _ _ h6 rfl
    · exact finOrNull_nco2 _ _ h7 (fun hn => by simpa [hn] using h7n)
    · exact finOrNull_nco2 _ _ h8 (fun hn => by simpa [hn] using h8n)
    · exact finOrNull_nco2 _ _ h9 (fun hn => by simpa [hn] using h9n)
  · intro hn; simp [normalizeReading, nco_of_isNullish _ _ hn]
  · intro hn; simp [normalizeReading, nco_of_isNullish _ _ hn]
  · intro hn hn2
    simp [normalizeReading, nco_of_isNullish _ _ hn, nco_of_isNullish _ _ hn2]
  · intro hn hn2
    simp [normalizeReading, nco_of_isNullish _ _ hn, nco_of_isNullish _ _ hn2]
  · intro hn hn2
    simp [normalizeReading, nco_of_isNullish _ _ hn, nco_of_isNullish _ _ hn2]
  · intro hn; simp [normalizeReading, jor_of_not_truthy _ _ hn]
  · intro hn; simp [normalizeReading, jor_of_not_truthy _ _ hn]
  · intro hn hn2
    simp [normalizeReading, nco_of_isNullish _ _ hn, nco_of_isNullish _ _ hn2]

/-- Witness for the amended C1 theorem at the empty payload. -/
theorem normalizeReading_total_defaults_witness :
    readingNoUndef (normalizeReading 0 []) = true ∧
    numericFinOrNull (normalizeReading 0 []) = true ∧
    (normalizeReading 0 []).respiration.value = JsVal.null :=
  ⟨(normalizeReading_total_defaults 0 []).1,
   (normalizeReading_total_defaults 0 []).2.1 (by decide),
   (normalizeReading_total_defaults 0 []).2.2.1 (by decide)⟩

/-! ## The Alert Engine (alerts.js, `AlertsManager`) -/

/-- `true` exactly for the value `null` (the strict comparison `=== null`). -/
def JsVal.isNull : JsVal → Bool
  | .null => true
  | _ => false

/-- `true` exactly for the value `false` (the strict comparison `=== false`). -/
def isFalseVal : JsVal → Bool
  | .bool false => true
  | _ => false

/-- Strict equality of a value with a string literal (`=== "lit"`). -/
def jstreq (v : JsVal) (s : String) : Bool :=
  match v with
  | .str t => t = s
  | _ => false

/-- Numeric coercion, as performed by the relational operators.  A plain
object coerces through its default string form to NaN. -/
def toNum : JsVal → JNum
  | .undefVal => .nan
  | .null => .fin 0
  | .bool b => .fin (if b then 1 else 0)
  | .num n => n
  | .str s => strToNum s
  | .obj _ => .nan

/-- `v < t` for a numeric right-hand side. -/
def jlt (v : JsVal) (t : ℚ) : Bool :=
  match toNum v with
  | .fin q => q < t
  | .nan => false
  | .inf => false
  | .neginf => true

/-- `v > t` for a numeric right-hand side. -/
def jgt (v : JsVal) (t : ℚ) : Bool :=
  match toNum v with
  | .fin q => t < q
  | .nan => false
  | .inf => true
  | .neginf => false

/-- String form of a finite JS number.  JS prints decimal expansions; the
exact rational is printed as numerator/denominator instead, which no proved
property depends on. -/
def jnumShow : JNum → String
  | .fin q => if q.den = 1 then toString q.num else toString q.num ++ "/" ++ toString q.den
  | .nan => "NaN"
  | .inf => "Infinity"
  | .neginf => "-Infinity"

/-- String coercion of a value, as used in template literals. -/
def jshow : JsVal → String
  | .undefVal => "undefined"
  | .null => "null"
  | .bool b => if b then "true" else "false"
  | .num n => jnumShow n
  | .str s => s
  | .obj _ => "[object Object]"

def ratShow (q : ℚ) : String := jnumShow (.fin q)

structure MinMaxThreshold where
  min : ℚ
  max : ℚ
deriving DecidableEq

structure MaxThreshold where
  max : ℚ
deriving DecidableEq

/-- The threshold configuration held by the Alert Engine. -/
structure Thresholds where
  respiration : MinMaxThreshold
  co2 : MaxThreshold
  bodyTemp : MinMaxThreshold
  voc : MaxThreshold
deriving DecidableEq

/-- The defaults set in the `AlertsManager` constructor. -/
def defaultThresholds : Thresholds :=
  { respiration := ⟨20, 60⟩, co2 := ⟨1000⟩, bodyTemp := ⟨36, 38⟩, voc := ⟨1⟩ }

structure Alert where
  severity : String
  title : String
  description : String
  key : String
  timestamp : ℤ
deriving DecidableEq

/-- `AlertsManager.createAlert`; `now` is the `Date.now()` call it makes. -/
def createAlert (severity title description key : String) (now : ℤ) : Alert :=
  { severity := severity, title := title, description := description,
    key := key, timestamp := now }

/-- The respiration checks of `checkReading`.  The guard compares the
optional-chained value against `null` only, after which the source
dereferences `reading.respiration.value` without optional chaining. -/
def respirationBlock (thr : Thresholds) (now : ℤ) (reading : JsVal) :
    Except Unit (List Alert) := do
  let r0 ← jgetE reading "respiration"
  if (optGet r0 "value").isNull then pure [] else do
    let r1 ← jgetE reading "respiration"
    let resp ← jgetE r1 "value"
    if jlt resp thr.respiration.min then
      pure [createAlert "CRITICAL" "Apnea Detected (mmWave)"
        ("No respiration detected for 15 seconds. Current: " ++ jshow resp ++ " rpm")
        "respiration_low" now]
    else if jgt resp thr.respiration.max then
      pure [createAlert "WARNING" "High Respiration Rate"
        ("Respiration rate elevated at " ++ jshow resp ++ " rpm") "respiration_high" now]
    else pure []

/-- The CO2 check of `checkReading`. -/
def co2Block (thr : Thresholds) (now : ℤ) (reading : JsVal) :
    Except Unit (List Alert) := do
  let e0 ← jgetE reading "environment"
  if (optGet (optGet e0 "co2") "value").isNull then pure [] else do
    let e1 ← jgetE reading "environment"
    let c1 ← jgetE e1 "co2"
    let co2 ← jgetE c1 "value"
    if jgt co2 thr.co2.max then
      pure [createAlert "WARNING" "High CO₂ (MH-Z19C)"
        ("Carbon dioxide levels exceeded " ++ ratShow thr.co2.max ++ " ppm. Current: " ++
          jshow co2 ++ " ppm") "co2_high" now]
    else pure []

/-- The body-temperature checks of `checkReading`. -/
def bodyTempBlock (thr : Thresholds) (now : ℤ) (reading : JsVal) :
    Except Unit (List Alert) := do
  let b0 ← jgetE reading "bodyTemp"
  if (optGet b0 "value").isNull then pure [] else do
    let b1 ← jgetE reading "bodyTemp"
    let temp ← jgetE b1 "value"
    if jlt temp thr.bodyTemp.min then
      pure [createAlert "WARNING" "Low Body Temperature"
        ("Body temperature below normal at " ++ jshow temp ++ "°C") "temp_low" now]
    else if jgt temp thr.bodyTemp.max then
      pure [createAlert "CRITICAL" "High Body Temperature"
        ("Fever detected at " ++ jshow temp ++ "°C") "temp_high" now]
    else pure []

/-- The posture check of `checkReading`. -/
def postureBlock (now : ℤ) (reading : JsVal) : Except Unit (List Alert) := do
  let p0 ← jgetE reading "posture"
  if jstreq (optGet p0 "state") "prone" then
    pure [createAlert "WARNING" "Prone Position (Camera)"
      "Infant rolled onto stomach detected by vision system." "posture_prone" now]
  else pure []

/-- The VOC check of `checkReading`. -/
def vocBlock (thr : Thresholds) (now : ℤ) (reading : JsVal) :
    Except Unit (List Alert) := do
  let e0 ← jgetE reading "environment"
  if (optGet (optGet e0 "voc") "value").isNull then pure [] else do
    let e1 ← jgetE reading "environment"
    let v1 ← jgetE e1 "voc"
    let voc ← jgetE v1 "value"
    if jgt voc thr.voc.max then
      pure [createAlert "WARNING" "High VOC Levels"
        ("Volatile organic compounds elevated at " ++ jshow voc) "voc_high" now]
    else pure []

/-- The gas-safety check of `checkReading`. -/
def gasBlock (now : ℤ) (reading : JsVal) : Except Unit (List Alert) := do
  let e0 ← jgetE reading "environment"
  if isFalseVal (optGet (optGet e0 "gas") "safe") then
    pure [createAlert "CRITICAL" "Gas Safety Alert"
      "Unsafe gas levels detected by MQ-135 sensor." "gas_unsafe" now]
  else pure []

/-- The audio check of `checkReading`. -/
def audioBlock (now : ℤ) (reading : JsVal) : Except Unit (List Alert) := do
  let a0 ← jgetE reading "audio"
  if jstreq (optGet a0 "state") "choking" then
    pure [createAlert "CRITICAL" "Choking Sound (MEMS)"
      "Audio pattern matching choking detected." "audio_choking" now]
  else pure []

/-- The condition-evaluation part of `AlertsManager.checkReading`: all nine
threshold and state conditions, in source order, building the `alerts`
array.  A thrown TypeError is the `Except.error` case. -/
def evalConditions (thr : Thresholds) (now : ℤ) (reading : JsVal) :
    Except Unit (List Alert) := do
  let a1 ← respirationBlock thr now reading
  let a2 ← co2Block thr now reading
  let a3 ← bodyTempBlock thr now reading
  let a4 ← postureBlock now reading
  let a5 ← vocBlock thr now reading
  let a6 ← gasBlock now reading
  let a7 ← audioBlock now reading
  pure (a1 ++ a2 ++ a3 ++ a4 ++ a5 ++ a6 ++ a7)

/-- The cooldown window (`this.alertCooldown`, 30 seconds). -/
def alertCooldown : ℤ := 30000

/-- `this.lastAlerts[key] || 0`. -/
def lastAlertsGet : List (String × ℤ) → String → ℤ
  | [], _ => 0
  | (k, v) :: rest, f => if k = f then v else lastAlertsGet rest f

/-- `this.lastAlerts[key] = t`. -/
def lastAlertsSet : List (String × ℤ) → String → ℤ → List (String × ℤ)
  | [], k, t => [(k, t)]
  | (k', v) :: rest, k, t =>
    if k' = k then (k, t) :: rest else (k', v) :: lastAlertsSet rest k t

/-- `AlertsManager.shouldTriggerAlert(key)`: the cooldown test
`Date.now() - lastTime > this.alertCooldown`. -/
def shouldTriggerAlert (la : List (String × ℤ)) (now : ℤ) (k : String) : Bool :=
  alertCooldown < now - lastAlertsGet la k

/-- Outcome of `triggerAlert`: the updated cooldown map, the alerts the
store accepted, and the alerts emitted to `alert` listeners. -/
structure TriggerResult where
  lastAlerts : List (String × ℤ)
  persisted : List Alert
  emitted : List Alert

/-- `AlertsManager.triggerAlert(alert)`.  The cooldown entry is written
first.  `saveOk` is the fate of the awaited `storageManager.saveAlert`
promise: when it rejects, the `await` throws inside `triggerAlert`, so
nothing after it runs — in particular `emit("alert", alert)` is skipped. -/
def triggerAlert (la : List (String × ℤ)) (saveOk : Bool) (a : Alert) : TriggerResult :=
  let la2 := lastAlertsSet la a.key a.timestamp
  if saveOk then ⟨la2, [a], [a]⟩ else ⟨la2, [], []⟩

/-- The `alerts.forEach` loop at the end of `checkReading`: trigger every
alert that passes the cooldown test, in order. -/
def processAlerts (la : List (String × ℤ)) (now : ℤ) (saveOk : Bool) :
    List Alert → TriggerResult
  | [] => ⟨la, [], []⟩
  | a :: rest =>
    if shouldTriggerAlert la now a.key then
      let t := triggerAlert la saveOk a
      let r := processAlerts t.lastAlerts now saveOk rest
      ⟨r.lastAlerts, t.persisted ++ r.persisted, t.emitted ++ r.emitted⟩
    else processAlerts la now saveOk rest

/-- `AlertsManager.checkReading(reading)`: evaluate all conditions, then
process the resulting alerts under the cooldown.  Returns the full `alerts`
array (suppressed instances included) plus the trigger outcome. -/
def checkReading (thr : Thresholds) (la : List (String × ℤ)) (now : ℤ)
    (saveOk : Bool) (reading : JsVal) : Except Unit (List Alert × TriggerResult) := do
  let alerts ← evalConditions thr now reading
  pure (alerts, processAlerts la now saveOk alerts)

/-- Number of alerts in the list for the given condition key. -/
def countKey (k : String) (l : List Alert) : Nat :=
  l.countP (fun a => a.key == k)

lemma countKey_append (k : String) (l1 l2 : List Alert) :
    countKey k (l1 ++ l2) = countKey k l1 + countKey k l2 :=
  List.countP_append _ _ _

lemma countKey_le_length (k : String) (l : List Alert) : countKey k l ≤ l.length :=
  List.countP_le_length _

lemma countKey_pos_mem {l : List Alert} {k : String} {K : List String}
    (hspec : ∀ a ∈ l, a.key ∈ K) (h : 0 < countKey k l) : k ∈ K := by
  obtain ⟨a, ha, hk⟩ := List.countP_pos_iff.mp h
  have hmem := hspec a ha
  rwa [show a.key = k from by simpa using hk] at hmem

lemma countKey_zero_of_disjoint {l : List Alert} {k : String} {K : List String}
    (hspec : ∀ a ∈ l, a.key ∈ K) (h : k ∉ K) : countKey k l = 0 := by
  rw [countKey, List.countP_eq_zero]
  intro a ha
  simp only [beq_iff_eq]
  intro e
  exact h (e ▸ hspec a ha)

lemma respirationBlock_spec {thr : Thresholds} {now : ℤ} {reading : JsVal}
    {as : List Alert} (h : respirationBlock thr now reading = .ok as) :
    as.length ≤ 1 ∧ ∀ a ∈ as, a.timestamp = now ∧
      a.key ∈ ["respiration_low", "respiration_high"] := by
  unfold respirationBlock at h
  cases h1 : jgetE reading "respiration" with
  | error e => rw [h1] at h; simp [Bind.bind, Except.bind] at h
  | ok r0 =>
    rw [h1] at h
    simp only [Bind.bind, Except.bind] at h
    split at h
    · simp only [Pure.pure, Except.pure, Except.ok.injEq] at h
      subst h; simp
    · cases h2 : jgetE r0 "value" with
      | error e => rw [h2] at h; simp [Except.bind] at h
      | ok resp =>
        rw [h2] at h
        simp only [Except.bind] at h
        split at h
        · simp only [Pure.pure, Except.pure, Except.ok.injEq] at h
          subst h; simp [createAlert]
        · split at h <;> simp only [Pure.pure, Except.pure, Except.ok.injEq] at h <;>
            subst h <;> simp [createAlert]

lemma co2Block_spec {thr : Thresholds} {now : ℤ} {reading : JsVal}
    {as : List Alert} (h : co2Block thr now reading = .ok as) :
    as.length ≤ 1 ∧ ∀ a ∈ as, a.timestamp = now ∧ a.key ∈ ["co2_high"] := by
  unfold co2Block at h
  cases h1 : jgetE reading "environment" with
  | error e => rw [h1] at h; simp [Bind.bind, Except.bind] at h
  | ok e0 =>
    rw [h1] at h
    simp only [Bind.bind, Except.bind] at h
    split at h
    · simp only [Pure.pure, Except.pure, Except.ok.injEq] at h
      subst h; simp
    · cases h2 : jgetE e0 "co2" with
      | error e => rw [h2] at h; simp [Except.bind] at h
      | ok c1 =>
        rw [h2] at h
        simp only [Except.bind] at h
        cases h3 : jgetE c1 "value" with
        | error e => rw [h3] at h; simp [Except.bind] at h
        | ok co2 =>
          rw [h3] at h
          simp only [Except.bind] at h
          split at h <;> simp only [Pure.pure, Except.pure, Except.ok.injEq] at h <;>
            subst h <;> simp [createAlert]

lemma bodyTempBlock_spec {thr : Thresholds} {now : ℤ} {reading : JsVal}
    {as : List Alert} (h : bodyTempBlock thr now reading = .ok as) :
    as.length ≤ 1 ∧ ∀ a ∈ as, a.timestamp = now ∧
      a.key ∈ ["temp_low", "temp_high"] := by
  unfold bodyTempBlock at h
  cases h1 : jgetE reading "bodyTemp" with
  | error e => rw [h1] at h; simp [Bind.bind, Except.bind] at h
  | ok b0 =>
    rw [h1] at h
    simp only [Bind.bind, Except.bind] at h
    split at h
    · simp only [Pure.pure, Except.pure, Except.ok.injEq] at h
      subst h; simp
    · cases h2 : jgetE b0 "value" with
      | error e => rw [h2] at h; simp [Except.bind] at h
      | ok temp =>
        rw [h2] at h
        simp only [Except.bind] at h
        split at h
        · simp only [Pure.pure, Except.pure, Except.ok.injEq] at h
          subst h; simp [createAlert]
        · split at h <;> simp only [Pure.pure, Except.pure, Except.ok.injEq] at h <;>
            subst h <;> simp [createAlert]

lemma postureBlock_spec {now : ℤ} {reading : JsVal}
    {as : List Alert} (h : postureBlock now reading = .ok as) :
    as.length ≤ 1 ∧ ∀ a ∈ as, a.timestamp = now ∧ a.key ∈ ["posture_prone"] := by
  unfold postureBlock at h
  cases h1 : jgetE reading "posture" with
  | error e => rw [h1] at h; simp [Bind.bind, Except.bind] at h
  | ok p0 =>
    rw [h1] at h
    simp only [Bind.bind, Except.bind] at h
    split at h <;> simp only [Pure.pure, Except.pure, Except.ok.injEq] at h <;>
      subst h <;> simp [createAlert]

lemma vocBlock_spec {thr : Thresholds} {now : ℤ} {reading : JsVal}
    {as : List Alert} (h : vocBlock thr now reading = .ok as) :
    as.length ≤ 1 ∧ ∀ a ∈ as, a.timestamp = now ∧ a.key ∈ ["voc_high"] := by
  unfold vocBlock at h
  cases h1 : jgetE reading "environment" with
  | error e => rw [h1] at h; simp [Bind.bind, Except.bind] at h
  | ok e0 =>
    rw [h1] at h
    simp only [Bind.bind, Except.bind] at h
    split at h
    · simp only [Pure.pure, Except.pure, Except.ok.injEq] at h
      subst h; simp
    · cases h2 : jgetE e0 "voc" with
      | error e => rw [h2] at h; simp [Except.bind] at h
      | ok v1 =>
        rw [h2] at h
        simp only [Except.bind] at h
        cases h3 : jgetE v1 "value" with
        | error e => rw [h3] at h; simp [Except.bind] at h
        | ok voc =>
          rw [h3] at h
          simp only [Except.bind] at h
          split at h <;> simp only [Pure.pure, Except.pure, Except.ok.injEq] at h <;>
            subst h <;> simp [createAlert]

lemma gasBlock_spec {now : ℤ} {reading : JsVal}
    {as : List Alert} (h : gasBlock now reading = .ok as) :
    as.length ≤ 1 ∧ ∀ a ∈ as, a.timestamp = now ∧ a.key ∈ ["gas_unsafe"] := by
  unfold gasBlock at h
  cases h1 : jgetE reading "environment" with
  | error e => rw [h1] at h; simp [Bind.bind, Except.bind] at h
  | ok e0 =>
    rw [h1] at h
    simp only [Bind.bind, Except.bind] at h
    split at h <;> simp only [Pure.pure, Except.pure, Except.ok.injEq] at h <;>
      subst h <;> simp [createAlert]

lemma audioBlock_spec {now : ℤ} {reading : JsVal}
    {as : List Alert} (h : audioBlock now reading = .ok as) :
    as.length ≤ 1 ∧ ∀ a ∈ as, a.timestamp = now ∧ a.key ∈ ["audio_choking"] := by
  unfold audioBlock at h
  cases h1 : jgetE reading "audio" with
  | error e => rw [h1] at h; simp [Bind.bind, Except.bind] at h
  | ok a0 =>
    rw [h1] at h
    simp only [Bind.bind, Except.bind] at h
    split at h <;> simp only [Pure.pure, Except.pure, Except.ok.injEq] at h <;>
      subst h <;> simp [createAlert]

lemma keyMem_append {l1 l2 : List Alert} {K1 K2 : List String}
    (s1 : ∀ a ∈ l1, a.key ∈ K1) (s2 : ∀ a ∈ l2, a.key ∈ K2) :
    ∀ a ∈ l1 ++ l2, a.key ∈ K1 ++ K2 := by
  intro a ha
  rcases List.mem_append.mp ha with h | h
  · exact List.mem_append_left _ (s1 a h)
  · exact List.mem_append_right _ (s2 a h)

lemma countKey_le_one_append {l1 l2 : List Alert} {K1 K2 : List String}
    (s1 : ∀ a ∈ l1, a.key ∈ K1) (s2 : ∀ a ∈ l2, a.key ∈ K2)
    (d : ∀ x ∈ K1, x ∉ K2)
    (c1 : ∀ k, countKey k l1 ≤ 1) (c2 : ∀ k, countKey k l2 ≤ 1) :
    ∀ k, countKey k (l1 ++ l2) ≤ 1 := by
  intro k
  rw [countKey_append]
  rcases Nat.eq_zero_or_pos (countKey k l1) with z | p
  · rw [z]
    simpa using c2 k
  · have z2 : countKey k l2 = 0 :=
      countKey_zero_of_disjoint s2 (d k (countKey_pos_mem s1 p))
    rw [z2]
    simpa using c1 k

lemma countKey_le_one_of_length {l : List Alert} (h : l.length ≤ 1) :
    ∀ k, countKey k l ≤ 1 :=
  fun k => le_trans (countKey_le_length k l) h

/-- Gathered facts about the `alerts` array `checkReading` builds: every
alert carries the evaluation clock, and no condition key appears twice. -/
lemma evalConditions_spec {thr : Thresholds} {now : ℤ} {reading : JsVal}
    {as : List Alert} (h : evalConditions thr now reading = .ok as) :
    (∀ a ∈ as, a.timestamp = now) ∧ ∀ k, countKey k as ≤ 1 := by
  unfold evalConditions at h
  cases hb1 : respirationBlock thr now reading with
  | error e => rw [hb1] at h; simp [Bind.bind, Except.bind] at h
  | ok as1 =>
  rw [hb1] at h
  simp only [Bind.bind, Except.bind] at h
  cases hb2 : co2Block thr now reading with
  | error e => rw [hb2] at h; simp [Except.bind] at h
  | ok as2 =>
  rw [hb2] at h
  simp only [Except.bind] at h
  cases hb3 : bodyTempBlock thr now reading with
  | error e => rw [hb3] at h; simp [Except.bind] at h
  | ok as3 =>
  rw [hb3] at h
  simp only [Except.bind] at h
  cases hb4 : postureBlock now reading with
  | error e => rw [hb4] at h; simp [Except.bind] at h
  | ok as4 =>
  rw [hb4] at h
  simp only [Except.bind] at h
  cases hb5 : vocBlock thr now reading with
  | error e => rw [hb5] at h; simp [Except.bind] at h
  | ok as5 =>
  rw [hb5] at h
  simp only [Except.bind] at h
  cases hb6 : gasBlock now reading with
  | error e => rw [hb6] at h; simp [Except.bind] at h
  | ok as6 =>
  rw [hb6] at h
  simp only [Except.bind] at h
  cases hb7 : audioBlock now reading with
  | error e => rw [hb7] at h; simp [Except.bind] at h
  | ok as7 =>
  rw [hb7] at h
  simp only [Except.bind, Pure.pure, Except.pure, Except.ok.injEq] at h
  subst h
  obtain ⟨l1, s1⟩ := respirationBlock_spec hb1
  obtain ⟨l2, s2⟩ := co2Block_spec hb2
  obtain ⟨l3, s3⟩ := bodyTempBlock_spec hb3
  obtain ⟨l4, s4⟩ := postureBlock_spec hb4
  obtain ⟨l5, s5⟩ := vocBlock_spec hb5
  obtain ⟨l6, s6⟩ := gasBlock_spec hb6
  obtain ⟨l7, s7⟩ := audioBlock_spec hb7
  constructor
  · intro a ha
    simp only [List.mem_append] at ha
    rcases ha with ((((((h | h) | h) | h) | h) | h) | h)
    · exact (s1 a h).1
    · exact (s2 a h).1
    · exact (s3 a h).1
    · exact (s4 a h).1
    · exact (s5 a h).1
    · exact (s6 a h).1
    · exact (s7 a h).1
  · have m1 : ∀ a ∈ as1, a.key ∈ ["respiration_low", "respiration_high"] :=
      fun a ha => (s1 a ha).2
    have m2 : ∀ a ∈ as2, a.key ∈ ["co2_high"] := fun a ha => (s2 a ha).2
    have m3 : ∀ a ∈ as3, a.key ∈ ["temp_low", "temp_high"] := fun a ha => (s3 a ha).2
    have m4 : ∀ a ∈ as4, a.key ∈ ["posture_prone"] := fun a ha => (s4 a ha).2
    have m5 : ∀ a ∈ as5, a.key ∈ ["voc_high"] := fun a ha => (s5 a ha).2
    have m6 : ∀ a ∈ as6, a.key ∈ ["gas_unsafe"] := fun a ha => (s6 a ha).2
    have m7 : ∀ a ∈ as7, a.key ∈ ["audio_choking"] := fun a ha => (s7 a ha).2
    have c12 := countKey_le_one_append m1 m2 (by decide)
      (countKey_le_one_of_length l1) (countKey_le_one_of_length l2)
    have m12 := keyMem_append m1 m2
    have c123 := countKey_le_one_append m12 m3 (by decide) c12
      (countKey_le_one_of_length l3)
    have m123 := keyMem_append m12 m3
    have c1234 := countKey_le_one_append m123 m4 (by decide) c123
      (countKey_le_one_of_length l4)
    have m1234 := keyMem_append m123 m4
    have c12345 := countKey_le_one_append m1234 m5 (by decide) c1234
      (countKey_le_one_of_length l5)
    have m12345 := keyMem_append m1234 m5
    have c123456 := countKey_le_one_append m12345 m6 (by decide) c12345
      (countKey_le_one_of_length l6)
    have m123456 := keyMem_append m12345 m6
    exact countKey_le_one_append m123456 m7 (by decide) c123456
      (countKey_le_one_of_length l7)

lemma lastAlertsGet_set_self (la : List (String × ℤ)) (k : String) (t : ℤ) :
    lastAlertsGet (lastAlertsSet la k t) k = t := by
  induction la with
  | nil => simp [lastAlertsSet, lastAlertsGet]
  | cons p rest ih =>
    obtain ⟨k', v⟩ := p
    by_cases e : k' = k <;> simp [lastAlertsSet, lastAlertsGet, e, ih]

lemma lastAlertsGet_set_ne (la : List (String × ℤ)) {k k' : String} (t : ℤ)
    (h : k' ≠ k) : lastAlertsGet (lastAlertsSet la k' t) k = lastAlertsGet la k := by
  induction la with
  | nil => simp [lastAlertsSet, lastAlertsGet, h]
  | cons p rest ih =>
    obtain ⟨k0, v⟩ := p
    by_cases e : k0 = k' <;> simp [lastAlertsSet, lastAlertsGet, e, ih, h]

/-- The suppression decision for a key reads only that key's own cooldown
entry. -/
lemma shouldTrigger_congr {la la' : List (String × ℤ)} (now : ℤ) (k : String)
    (h : lastAlertsGet la k = lastAlertsGet la' k) :
    shouldTriggerAlert la now k = shouldTriggerAlert la' now k := by
  unfold shouldTriggerAlert
  rw [h]

lemma processAlerts_no_key {k : String} (la : List (String × ℤ)) (now : ℤ)
    (saveOk : Bool) {as : List Alert} (h : ∀ a ∈ as, a.key ≠ k) :
    countKey k (processAlerts la now saveOk as).persisted = 0 ∧
    countKey k (processAlerts la now saveOk as).emitted = 0 ∧
    lastAlertsGet (processAlerts la now saveOk as).lastAlerts k = lastAlertsGet la k := by
  induction as generalizing la with
  | nil => simp [processAlerts, countKey]
  | cons a rest ih =>
    have hka : a.key ≠ k := h a (List.mem_cons_self a rest)
    have hr : ∀ b ∈ rest, b.key ≠ k := fun b hb => h b (List.mem_cons_of_mem a hb)
    unfold processAlerts
    split
    · obtain ⟨ih1, ih2, ih3⟩ := ih (lastAlertsSet la a.key a.timestamp) hr
      cases saveOk <;>
        simp_all [triggerAlert, countKey_append, countKey, List.countP_cons, hka,
          lastAlertsGet_set_ne la a.timestamp hka]
    · exact ih la hr

/-- Behaviour of the trigger loop for one condition key, assuming the key
occurs at most once in the alerts array (which `evalConditions_spec`
guarantees) and all timestamps equal the evaluation clock. -/
lemma countKey_cons (k : String) (a : Alert) (l : List Alert) :
    countKey k (a :: l) = countKey k l + (if a.key = k then 1 else 0) := by
  simp [countKey, List.countP_cons]

/-- Behaviour of the trigger loop for one condition key, assuming the key
occurs at most once in the alerts array (which `evalConditions_spec`
guarantees) and all timestamps equal the evaluation clock. -/
lemma processAlerts_key {k : String} (la : List (String × ℤ)) (now : ℤ)
    {as : List Alert} (hts : ∀ a ∈ as, a.timestamp = now)
    (hc : countKey k as ≤ 1) :
    countKey k (processAlerts la now true as).persisted
      = (if 0 < countKey k as ∧ shouldTriggerAlert la now k = true then 1 else 0) ∧
    countKey k (processAlerts la now true as).emitted
      = (if 0 < countKey k as ∧ shouldTriggerAlert la now k = true then 1 else 0) ∧
    lastAlertsGet (processAlerts la now true as).lastAlerts k
      = (if 0 < countKey k as ∧ shouldTriggerAlert la now k = true then now
         else lastAlertsGet la k) := by
  induction as generalizing la with
  | nil => simp [processAlerts, countKey]
  | cons a rest ih =>
    have hta : a.timestamp = now := hts a (List.mem_cons_self a rest)
    have htr : ∀ b ∈ rest, b.timestamp = now := fun b hb => hts b (List.mem_cons_of_mem a hb)
    by_cases hak : a.key = k
    · have hcons : countKey k (a :: rest) = 1 + countKey k rest := by
        simp [countKey, List.countP_cons, hak, Nat.add_comm]
      have hrest0 : countKey k rest = 0 := by omega
      have hrestne : ∀ b ∈ rest, b.key ≠ k := by
        intro b hb e
        have hpos : 0 < countKey k rest :=
          List.countP_pos_iff.mpr ⟨b, hb, by simp [e]⟩
        omega
      unfold processAlerts
      by_cases hst : shouldTriggerAlert la now a.key = true
      · rw [if_pos hst]
        obtain ⟨n1, n2, n3⟩ :=
          processAlerts_no_key (lastAlertsSet la a.key a.timestamp) now true hrestne
        rw [hak] at hst
        have hcond : (0 < countKey k (a :: rest) ∧ shouldTriggerAlert la now k = true) := by
          constructor
          · omega
          · exact hst
        simp only [if_pos hcond]
        rw [hak] at n1 n2 n3
        rw [hta] at n3
        refine ⟨?_, ?_, ?_⟩
        · simp [triggerAlert, countKey_cons, n1, hak]
        · simp [triggerAlert, countKey_cons, n2, hak]
        · simp [triggerAlert, hak, hta, n3, lastAlertsGet_set_self]
      · rw [if_neg hst]
        rw [hak] at hst
        have hcond : ¬(0 < countKey k (a :: rest) ∧ shouldTriggerAlert la now k = true) := by
          intro hcon
          exact hst hcon.2
        simp only [if_neg hcond]
        exact processAlerts_no_key la now true hrestne
    · have hcnt : countKey k (a :: rest) = countKey k rest := by
        simp [countKey, List.countP_cons, hak]
      have hcr : countKey k rest ≤ 1 := by omega
      unfold processAlerts
      split
      · obtain ⟨i1, i2, i3⟩ := ih (lastAlertsSet la a.key a.timestamp) htr hcr
        have hget : lastAlertsGet (lastAlertsSet la a.key a.timestamp) k
            = lastAlertsGet la k := lastAlertsGet_set_ne la a.timestamp hak
        rw [shouldTrigger_congr now k hget] at i1 i2 i3
        rw [hcnt]
        rw [hget] at i3
        refine ⟨?_, ?_, ?_⟩
        · simp [triggerAlert, countKey_cons, i1, hak]
        · simp [triggerAlert, countKey_cons, i2, hak]
        · simpa [triggerAlert] using i3
      · obtain ⟨i1, i2, i3⟩ := ih la htr hcr
        rw [hcnt]
        exact ⟨i1, i2, i3⟩

lemma checkReading_ok {thr : Thresholds} {la : List (String × ℤ)} {now : ℤ}
    {saveOk : Bool} {reading : JsVal} {as : List Alert} {res : TriggerResult}
    (h : checkReading thr la now saveOk reading = .ok (as, res)) :
    evalConditions thr now reading = .ok as ∧ res = processAlerts la now saveOk as := by
  unfold checkReading at h
  cases he : evalConditions thr now reading with
  | error e => rw [he] at h; simp [Bind.bind, Except.bind] at h
  | ok xs =>
    rw [he] at h
    simp only [Bind.bind, Except.bind, Pure.pure, Except.pure, Except.ok.injEq,
      Prod.mk.injEq] at h
    obtain ⟨h1, h2⟩ := h
    subst h1
    exact ⟨rfl, h2.symm⟩

/-- C2.  Per-key cooldown of the Alert Engine: when a Reading triggering
condition `k` is checked at `t1` (with `k` off cooldown), a second Reading
triggering `k` within the cooldown window is neither persisted nor emitted,
and a third checked after the cooldown has expired (measured from the first,
non-suppressed trigger: suppression does not touch the cooldown clock) is
persisted and emitted again; and the suppression decision for any key reads
only that key's own cooldown entry, so keys never interfere. -/
theorem alert_cooldown_per_key (thr : Thresholds) (la0 : List (String × ℤ))
    (t1 t2 t3 : ℤ) (r1 r2 r3 : JsVal) (k : String)
    (as1 as2 as3 : List Alert) (res1 res2 res3 : TriggerResult)
    (h1 : checkReading thr la0 t1 true r1 = .ok (as1, res1))
    (hk1 : 0 < countKey k as1)
    (h2 : checkReading thr res1.lastAlerts t2 true r2 = .ok (as2, res2))
    (hk2 : 0 < countKey k as2)
    (h3 : checkReading thr res2.lastAlerts t3 true r3 = .ok (as3, res3))
    (hk3 : 0 < countKey k as3)
    (hfirst : shouldTriggerAlert la0 t1 k = true)
    (hwin : t2 - t1 ≤ alertCooldown)
    (hexp : alertCooldown < t3 - t1) :
    countKey k res1.persisted = 1 ∧ countKey k res1.emitted = 1 ∧
    countKey k res2.persisted = 0 ∧ countKey k res2.emitted = 0 ∧
    countKey k res3.persisted = 1 ∧ countKey k res3.emitted = 1 ∧
    (∀ (la la' : List (String × ℤ)) (now : ℤ) (k' : String),
       lastAlertsGet la k' = lastAlertsGet la' k' →
       shouldTriggerAlert la now k' = shouldTriggerAlert la' now k') := by
  obtain ⟨he1, hres1⟩ := checkReading_ok h1
  obtain ⟨hts1, hcnt1⟩ := evalConditions_spec he1
  subst hres1
  obtain ⟨he2, hres2⟩ := checkReading_ok h2
  obtain ⟨hts2, hcnt2⟩ := evalConditions_spec he2
  subst hres2
  obtain ⟨he3, hres3⟩ := checkReading_ok h3
  obtain ⟨hts3, hcnt3⟩ := evalConditions_spec he3
  subst hres3
  obtain ⟨p1, e1, g1⟩ := processAlerts_key la0 t1 hts1 (hcnt1 k)
  have hcond1 : 0 < countKey k as1 ∧ shouldTriggerAlert la0 t1 k = true := ⟨hk1, hfirst⟩
  rw [if_pos hcond1] at p1 e1 g1
  have hst2 : shouldTriggerAlert (processAlerts la0 t1 true as1).lastAlerts t2 k = false := by
    unfold shouldTriggerAlert
    rw [g1]
    exact decide_eq_false (not_lt.mpr hwin)
  obtain ⟨p2, e2, g2⟩ :=
    processAlerts_key (processAlerts la0 t1 true as1).lastAlerts t2 hts2 (hcnt2 k)
  have hcond2 : ¬(0 < countKey k as2 ∧
      shouldTriggerAlert (processAlerts la0 t1 true as1).lastAlerts t2 k = true) := by
    rintro ⟨-, hx⟩
    rw [hst2] at hx
    exact Bool.false_ne_true hx
  rw [if_neg hcond2] at p2 e2 g2
  rw [g1] at g2
  have hst3 : shouldTriggerAlert
      (processAlerts (processAlerts la0 t1 true as1).lastAlerts t2 true as2).lastAlerts
      t3 k = true := by
    unfold shouldTriggerAlert
    rw [g2]
    exact decide_eq_true hexp
  obtain ⟨p3, e3, g3⟩ :=
    processAlerts_key
      (processAlerts (processAlerts la0 t1 true as1).lastAlerts t2 true as2).lastAlerts
      t3 hts3 (hcnt3 k)
  rw [if_pos ⟨hk3, hst3⟩] at p3 e3 g3
  exact ⟨p1, e1, p2, e2, p3, e3, fun la la' now k' h => shouldTrigger_congr now k' h⟩

/-- Reading used by the cooldown witness: respiration 10 breaths/min, below
the default minimum of 20. -/
def cooldownReading : JsVal :=
  (normalizeReading 0 [("respiration", JsVal.obj [("value", JsVal.num (JNum.fin 10))])]).toJs

/-- The apnea alert `checkReading` produces for `cooldownReading` at `t`. -/
def cooldownAlert (t : ℤ) : Alert :=
  createAlert "CRITICAL" "Apnea Detected (mmWave)"
    ("No respiration detected for 15 seconds. Current: " ++ jshow (JsVal.num (JNum.fin 10))
      ++ " rpm")
    "respiration_low" t

def cooldownRes1 : TriggerResult := processAlerts [] 40000 true [cooldownAlert 40000]

def cooldownRes2 : TriggerResult :=
  processAlerts cooldownRes1.lastAlerts 60000 true [cooldownAlert 60000]

def cooldownRes3 : TriggerResult :=
  processAlerts cooldownRes2.lastAlerts 80000 true [cooldownAlert 80000]

/-- Witness for C2: three checks of the same apnea Reading at 40 s, 60 s
(suppressed) and 80 s (cooldown expired). -/
theorem alert_cooldown_per_key_witness :
    countKey "respiration_low" cooldownRes1.persisted = 1 ∧
    countKey "respiration_low" cooldownRes2.persisted = 0 ∧
    countKey "respiration_low" cooldownRes3.persisted = 1 := by
  have h := alert_cooldown_per_key defaultThresholds [] 40000 60000 80000
    cooldownReading cooldownReading cooldownReading "respiration_low"
    [cooldownAlert 40000] [cooldownAlert 60000] [cooldownAlert 80000]
    cooldownRes1 cooldownRes2 cooldownRes3
    rfl (by decide) rfl (by decide) rfl (by decide)
    (by decide) (by decide) (by decide)
  exact ⟨h.1, h.2.2.1, h.2.2.2.2.1⟩

/-- Alert used for the failed-persist scenario. -/
def failedSaveAlert : Alert :=
  createAlert "CRITICAL" "Gas Safety Alert"
    "Unsafe gas levels detected by MQ-135 sensor." "gas_unsafe" 5000

/-- C3 (code bug).  When the awaited `storageManager.saveAlert` promise
rejects, the exception propagates out of the `await` inside `triggerAlert`
before `this.emit("alert", alert)` runs: the alert is neither persisted nor
emitted (only the cooldown entry, written before the `await`, survives).
The specification requires the emit to happen regardless of a failed
persist, so this evaluates the code at the failing input. -/
theorem triggerAlert_failed_save_skips_emit :
    (triggerAlert [] false failedSaveAlert).emitted = [] ∧
    (triggerAlert [] false failedSaveAlert).persisted = [] ∧
    (triggerAlert [] false failedSaveAlert).lastAlerts = [("gas_unsafe", 5000)] ∧
    (triggerAlert [] true failedSaveAlert).emitted = [failedSaveAlert] :=
  ⟨rfl, rfl, rfl, rfl⟩

lemma respirationBlock_toJs_ok (thr : Thresholds) (t : ℤ) (r : Reading) :
    ∃ as, respirationBlock thr t r.toJs = .ok as := by
  unfold respirationBlock Reading.toJs
  simp [jgetE, jlookup, Bind.bind, Except.bind]
  repeat' split
  all_goals exact ⟨_, rfl⟩

lemma co2Block_toJs_ok (thr : Thresholds) (t : ℤ) (r : Reading) :
    ∃ as, co2Block thr t r.toJs = .ok as := by
  unfold co2Block Reading.toJs
  simp [jgetE, jlookup, Bind.bind, Except.bind]
  repeat' split
  all_goals exact ⟨_, rfl⟩

lemma bodyTempBlock_toJs_ok (thr : Thresholds) (t : ℤ) (r : Reading) :
    ∃ as, bodyTempBlock thr t r.toJs = .ok as := by
  unfold bodyTempBlock Reading.toJs
  simp [jgetE, jlookup, Bind.bind, Except.bind]
  repeat' split
  all_goals exact ⟨_, rfl⟩

lemma postureBlock_toJs_ok (t : ℤ) (r : Reading) :
    ∃ as, postureBlock t r.toJs = .ok as := by
  unfold postureBlock Reading.toJs
  simp [jgetE, jlookup, Bind.bind, Except.bind]
  repeat' split
  all_goals exact ⟨_, rfl⟩

lemma vocBlock_toJs_ok (thr : Thresholds) (t : ℤ) (r : Reading) :
    ∃ as, vocBlock thr t r.toJs = .ok as := by
  unfold vocBlock Reading.toJs
  simp [jgetE, jlookup, Bind.bind, Except.bind]
  repeat' split
  all_goals exact ⟨_, rfl⟩

lemma gasBlock_toJs_ok (t : ℤ) (r : Reading) :
    ∃ as, gasBlock t r.toJs = .ok as := by
  unfold gasBlock Reading.toJs
  simp [jgetE, jlookup, Bind.bind, Except.bind]
  repeat' split
  all_goals exact ⟨_, rfl⟩

lemma audioBlock_toJs_ok (t : ℤ) (r : Reading) :
    ∃ as, audioBlock t r.toJs = .ok as := by
  unfold audioBlock Reading.toJs
  simp [jgetE, jlookup, Bind.bind, Except.bind]
  repeat' split
  all_goals exact ⟨_, rfl⟩

lemma evalConditions_toJs_ok (thr : Thresholds) (t : ℤ) (r : Reading) :
    ∃ as, evalConditions thr t r.toJs = .ok as := by
  obtain ⟨a1, e1⟩ := respirationBlock_toJs_ok thr t r
  obtain ⟨a2, e2⟩ := co2Block_toJs_ok thr t r
  obtain ⟨a3, e3⟩ := bodyTempBlock_toJs_ok thr t r
  obtain ⟨a4, e4⟩ := postureBlock_toJs_ok t r
  obtain ⟨a5, e5⟩ := vocBlock_toJs_ok thr t r
  obtain ⟨a6, e6⟩ := gasBlock_toJs_ok t r
  obtain ⟨a7, e7⟩ := audioBlock_toJs_ok t r
  refine ⟨a1 ++ a2 ++ a3 ++ a4 ++ a5 ++ a6 ++ a7, ?_⟩
  unfold evalConditions
  simp [Bind.bind, Except.bind, e1, e2, e3, e4, e5, e6, e7, Pure.pure, Except.pure]

/-- C10.  `checkReading` cannot throw on any Reading produced by
`normalizeReading`, because the normalizer materialises every sensor
sub-object; but its null-skip guards use optional chaining against `null`
only (`undefined !== null` passes), after which the source dereferences the
sub-object without optional chaining, so a reading lacking a sensor
sub-object makes `checkReading` throw a TypeError: shown here both for an
empty reading object (no `respiration`) and for a reading whose
`environment` lacks `co2`. -/
theorem checkReading_total_on_normalized :
    (∀ (thr : Thresholds) (la : List (String × ℤ)) (nowN : ℚ) (t : ℤ)
       (saveOk : Bool) (data : List (String × JsVal)),
       (checkReading thr la t saveOk (normalizeReading nowN data).toJs).isOk = true) ∧
    checkReading defaultThresholds [] 0 true (JsVal.obj []) = .error () ∧
    checkReading defaultThresholds [] 0 true
      (JsVal.obj [("respiration", JsVal.obj [("value", JsVal.null)]),
                  ("bodyTemp", JsVal.obj [("value", JsVal.null)]),
                  ("posture", JsVal.obj []), ("audio", JsVal.obj []),
                  ("environment", JsVal.obj [])]) = .error () := by
  refine ⟨?_, rfl, rfl⟩
  intro thr la nowN t saveOk data
  obtain ⟨as, has⟩ := evalConditions_toJs_ok thr t (normalizeReading nowN data)
  unfold checkReading
  simp [Bind.bind, Except.bind, has, Pure.pure, Except.pure, Except.isOk, Except.toBool]

/-! ## The Connection Poller (gemini.js, `ConnectionManager`)

An operational model of the poll loop as the browser event loop schedules
it.  Configurations are abstracted by a generation number, bumped by each
`configure` call; timers and fetches carry identifiers, and each in-flight
fetch records the generation current when it was issued (the configuration
its request was sent to).  Events in the log are tagged with the issuing
generation of the fetch whose completion emitted them. -/

inductive PEvent where
  | connected (originGen : Nat)
  | dataEv (originGen : Nat)
  | disconnected (originGen : Nat)
  | errorEv (originGen : Nat) (retries : Nat)
deriving DecidableEq, Repr

def PEvent.originGen : PEvent → Nat
  | .connected g => g
  | .dataEv g => g
  | .disconnected g => g
  | .errorEv g _ => g

structure PollerW where
  gen : Nat
  pollTimer : Option Nat
  isConnected : Bool
  currentRetries : Nat
  nextTimerId : Nat
  nextFetchId : Nat
  pending : List Nat
  inflight : List (Nat × Nat)
  log : List PEvent
deriving DecidableEq, Repr

/-- The synchronous prefix of `poll()`: issue the fetch of the current
configuration and suspend at the `await`. -/
def issueFetch (w : PollerW) : PollerW :=
  { w with inflight := w.inflight ++ [(w.nextFetchId, w.gen)],
           nextFetchId := w.nextFetchId + 1 }

/-- `this.pollTimer = setTimeout(() => this.poll(), this.pollInterval)`. -/
def armTimer (w : PollerW) : PollerW :=
  { w with pending := w.pending ++ [w.nextTimerId],
           pollTimer := some w.nextTimerId,
           nextTimerId := w.nextTimerId + 1 }

/-- `ConnectionManager.stop()`: clear the recorded timer, if any.  A timer
id that already fired (or an in-flight fetch) is untouched. -/
def stopPoller (w : PollerW) : PollerW :=
  match w.pollTimer with
  | some tid => { w with pending := w.pending.erase tid, pollTimer := none }
  | none => w

/-- `ConnectionManager.start()`: call `poll()`, which runs to its first
`await`. -/
def startPoller (w : PollerW) : PollerW := issueFetch w

/-- `ConnectionManager.configure(address, port, interval)`: install the new
configuration (a fresh generation), then `stop()` and `start()`. -/
def configurePoller (w : PollerW) : PollerW :=
  startPoller (stopPoller { w with gen := w.gen + 1 })

def findFetch : List (Nat × Nat) → Nat → Option Nat
  | [], _ => none
  | (fid, g) :: rest, f => if fid = f then some g else findFetch rest f

def removeFetch : List (Nat × Nat) → Nat → List (Nat × Nat)
  | [], _ => []
  | (fid, g) :: rest, f => if fid = f then rest else (fid, g) :: removeFetch rest f

/-- Resumption of `poll()` when its fetch settles: on success emit
`connected` (on a transition) and `data`; on failure run `handleError`
(increment the retry counter, emit `disconnected` on a transition, emit
`error`); in every case re-arm exactly one timer. -/
def completeFetch (w : PollerW) (fid : Nat) (ok : Bool) : PollerW :=
  match findFetch w.inflight fid with
  | none => w
  | some g =>
    let w1 := { w with inflight := removeFetch w.inflight fid }
    if ok then
      if w1.isConnected then
        armTimer { w1 with log := w1.log ++ [.dataEv g] }
      else
        armTimer { w1 with
          isConnected := true
          currentRetries := 0
          log := w1.log ++ [.connected g, .dataEv g] }
    else
      let w2 := { w1 with currentRetries := w1.currentRetries + 1 }
      if w2.isConnected then
        armTimer { w2 with
          isConnected := false
          log := w2.log ++ [.disconnected g, .errorEv g w2.currentRetries] }
      else
        armTimer { w2 with log := w2.log ++ [.errorEv g w2.currentRetries] }

/-- A pending timer fires: it leaves the pending set and runs `poll()`. -/
def fireTimer (w : PollerW) (tid : Nat) : PollerW :=
  if w.pending.contains tid then issueFetch { w with pending := w.pending.erase tid }
  else w

inductive PStep where
  | start
  | stop
  | reconfigure
  | fire (tid : Nat)
  | complete (fid : Nat) (ok : Bool)
deriving DecidableEq, Repr

def pstep (w : PollerW) : PStep → PollerW
  | .start => startPoller w
  | .stop => stopPoller w
  | .reconfigure => configurePoller w
  | .fire tid => fireTimer w tid
  | .complete fid ok => completeFetch w fid ok

def prun (w : PollerW) : List PStep → PollerW
  | [] => w
  | s :: rest => prun (pstep w s) rest

def initPoller : PollerW :=
  { gen := 0, pollTimer := none, isConnected := false, currentRetries := 0,
    nextTimerId := 0, nextFetchId := 0, pending := [], inflight := [], log := [] }

def isInternal : PStep → Bool
  | .fire _ => true
  | .complete _ _ => true
  | _ => false

def quiescent (w : PollerW) : Bool := w.pending.isEmpty && w.inflight.isEmpty

/-- Precondition on one external call: `start` only from an idle poller,
`stop` and `configure` only while no fetch of this poller is in flight;
timer fires and fetch completions are always allowed. -/
def okExt (w : PollerW) : PStep → Bool
  | .start => quiescent w
  | .stop => w.inflight.isEmpty
  | .reconfigure => w.inflight.isEmpty
  | _ => true

/-- The call discipline under which the amended claim holds. -/
def externalSafe (w : PollerW) : List PStep → Bool
  | [] => true
  | s :: rest => okExt w s && externalSafe (pstep w s) rest

/-- Poller state invariant: at most one pending timer or in-flight fetch in
total, the pending timer (if any) is the one recorded in `pollTimer`, and
every in-flight fetch was issued under the current configuration. -/
def pollerInv (w : PollerW) : Bool :=
  decide (w.pending.length + w.inflight.length ≤ 1) &&
  w.pending.all (fun tid => w.pollTimer == some tid) &&
  w.inflight.all (fun p => p.2 == w.gen)

/-- C4 counterexample.  `stop()` only clears the pending timer; an
in-flight fetch is not cancelled.  Starting and immediately reconfiguring
leaves the old configuration's fetch alive: its completion still delivers
events tagged with the old generation after the restart and re-arms an
extra timer, giving two pending timers — and a fetch in flight when
`stop()` is called re-arms a timer after the stop. -/
theorem poller_stale_fetch_counterexample :
    (prun initPoller [.start, .reconfigure, .complete 0 true, .complete 1 true]).pending
      = [0, 1] ∧
    (prun initPoller [.start, .reconfigure]).gen = 1 ∧
    (prun initPoller [.start, .reconfigure, .complete 0 true]).log
      = [.connected 0, .dataEv 0] ∧
    (prun initPoller [.start, .stop, .complete 0 true]).pending = [0] :=
  ⟨rfl, rfl, rfl, rfl⟩

lemma pollerInv_decompose {w : PollerW} (h : pollerInv w = true) :
    w.pending.length + w.inflight.length ≤ 1 ∧
    (∀ tid ∈ w.pending, w.pollTimer = some tid) ∧
    (∀ p ∈ w.inflight, p.2 = w.gen) := by
  simp only [pollerInv, Bool.and_eq_true, List.all_eq_true, decide_eq_true_eq,
    beq_iff_eq] at h
  exact ⟨h.1.1, h.1.2, h.2⟩

lemma stopPoller_quiescent {w : PollerW} (h : pollerInv w = true)
    (hf : w.inflight = []) : quiescent (stopPoller w) = true := by
  obtain ⟨hlen, hpt, -⟩ := pollerInv_decompose h
  unfold stopPoller
  cases hp : w.pollTimer with
  | none =>
    have : w.pending = [] := by
      cases hpend : w.pending with
      | nil => rfl
      | cons t rest =>
        have := hpt t (by rw [hpend]; exact List.mem_cons_self t rest)
        rw [hp] at this
        cases this
    simp [quiescent, this, hf]
  | some tid =>
    cases hpend : w.pending with
    | nil => simp [quiescent, hpend, hf]
    | cons t rest =>
      have ht := hpt t (by rw [hpend]; exact List.mem_cons_self t rest)
      rw [hp] at ht
      have htid : tid = t := by injection ht
      have hrest : rest = [] := by
        rw [hpend, hf] at hlen
        simp only [List.length_cons, List.length_nil] at hlen
        exact List.length_eq_zero.mp (by omega)
      subst hrest
      rw [htid]
      simp [quiescent, hpend, hf, List.erase_cons_head]

lemma quiescent_inv {w : PollerW} (h : quiescent w = true) : pollerInv w = true := by
  simp only [quiescent, Bool.and_eq_true, List.isEmpty_iff] at h
  simp [pollerInv, h.1, h.2]

lemma issueFetch_inv {w : PollerW} (h : quiescent w = true) :
    pollerInv (issueFetch w) = true := by
  simp only [quiescent, Bool.and_eq_true, List.isEmpty_iff] at h
  simp [pollerInv, issueFetch, h.1, h.2]

lemma findFetch_mem {l : List (Nat × Nat)} {fid g : Nat}
    (h : findFetch l fid = some g) : (fid, g) ∈ l := by
  induction l with
  | nil => simp [findFetch] at h
  | cons p rest ih =>
    obtain ⟨f0, g0⟩ := p
    by_cases e : f0 = fid
    · subst e
      simp [findFetch] at h
      subst h
      exact List.mem_cons_self _ _
    · simp [findFetch, e] at h
      exact List.mem_cons_of_mem _ (ih h)

lemma inflight_singleton {w : PollerW} (h : pollerInv w = true) {fid g : Nat}
    (hf : findFetch w.inflight fid = some g) :
    w.inflight = [(fid, g)] ∧ w.pending = [] ∧ g = w.gen := by
  obtain ⟨hlen, -, htags⟩ := pollerInv_decompose h
  have hmem := findFetch_mem hf
  have hg : g = w.gen := htags (fid, g) hmem
  cases hif : w.inflight with
  | nil => rw [hif] at hmem; cases hmem
  | cons p rest =>
    have hrest : rest = [] := by
      rw [hif] at hlen
      simp only [List.length_cons] at hlen
      exact List.length_eq_zero.mp (by omega)
    have hpend : w.pending = [] := by
      rw [hif] at hlen
      simp only [List.length_cons] at hlen
      exact List.length_eq_zero.mp (by omega)
    subst hrest
    rw [hif] at hmem
    have hp : p = (fid, g) := (List.mem_singleton.mp hmem).symm
    refine ⟨?_, hpend, hg⟩
    rw [hp]

lemma completeFetch_found {w : PollerW} {fid g : Nat} (ok : Bool)
    (h : pollerInv w = true) (hf : findFetch w.inflight fid = some g) :
    pollerInv (completeFetch w fid ok) = true ∧
    (completeFetch w fid ok).gen = w.gen ∧
    ∃ tail, (completeFetch w fid ok).log = w.log ++ tail ∧
      ∀ e ∈ tail, e.originGen = w.gen := by
  obtain ⟨hif, hpend, hg⟩ := inflight_singleton h hf
  subst hg
  unfold completeFetch
  rw [hf]
  have hrm : removeFetch w.inflight fid = [] := by
    rw [hif]
    simp [removeFetch]
  cases ok <;> cases hic : w.isConnected <;>
    simp [armTimer, pollerInv, hrm, hpend, hic, PEvent.originGen]

lemma pstep_gen_mono (w : PollerW) (s : PStep) : w.gen ≤ (pstep w s).gen := by
  cases s with
  | start => simp [pstep, startPoller, issueFetch]
  | stop =>
    simp only [pstep, stopPoller]
    split <;> simp
  | reconfigure =>
    simp only [pstep, configurePoller, startPoller, issueFetch, stopPoller]
    split <;> simp <;> omega
  | fire tid =>
    simp only [pstep, fireTimer]
    split <;> simp [issueFetch]
  | complete fid ok =>
    simp only [pstep, completeFetch]
    cases hf : findFetch w.inflight fid with
    | none => simp
    | some g =>
      simp only []
      cases ok <;> cases w.isConnected <;> simp [armTimer]

/-- One safe step preserves the invariant, never lowers the generation, and
only appends events tagged with the pre-step (current) generation. -/
lemma pstep_inv {w : PollerW} {s : PStep} (h : pollerInv w = true)
    (hs : okExt w s = true) :
    pollerInv (pstep w s) = true ∧
    ∃ tail, (pstep w s).log = w.log ++ tail ∧ ∀ e ∈ tail, e.originGen = w.gen := by
  cases s with
  | start =>
    simp only [pstep, startPoller]
    exact ⟨issueFetch_inv hs, [], by simp [issueFetch]⟩
  | stop =>
    have hq := stopPoller_quiescent h (List.isEmpty_iff.mp hs)
    refine ⟨quiescent_inv hq, [], ?_⟩
    simp only [pstep]
    unfold stopPoller
    split <;> simp
  | reconfigure =>
    have hf : w.inflight = [] := List.isEmpty_iff.mp hs
    have hinv1 : pollerInv { w with gen := w.gen + 1 } = true := by
      obtain ⟨hlen, hpt, -⟩ := pollerInv_decompose h
      simp only [pollerInv, Bool.and_eq_true, List.all_eq_true, decide_eq_true_eq,
        beq_iff_eq]
      refine ⟨⟨hlen, fun tid ht => by simpa using hpt tid ht⟩, ?_⟩
      intro p hp
      rw [hf] at hp
      cases hp
    have hq := stopPoller_quiescent hinv1 hf
    refine ⟨issueFetch_inv hq, [], ?_⟩
    simp only [pstep, configurePoller, startPoller, issueFetch, stopPoller]
    split <;> simp
  | fire tid =>
    simp only [pstep, fireTimer]
    by_cases hc : w.pending.contains tid
    · rw [if_pos hc]
      obtain ⟨hlen, hpt, -⟩ := pollerInv_decompose h
      have htm : tid ∈ w.pending := by simpa using hc
      have hq : quiescent { w with pending := w.pending.erase tid } = true := by
        cases hpend : w.pending with
        | nil => rw [hpend] at htm; cases htm
        | cons t rest =>
          have hrest : rest = [] := by
            rw [hpend] at hlen
            simp at hlen
            exact List.length_eq_zero.mp (by omega)
          have hinf : w.inflight = [] := by
            rw [hpend] at hlen
            simp at hlen
            exact List.length_eq_zero.mp (by omega)
          subst hrest
          have htt : tid = t := by
            rw [hpend] at htm
            simpa using htm
          subst htt
          simp [quiescent, hpend, hinf, List.erase_cons_head]
      exact ⟨issueFetch_inv hq, [], by simp [issueFetch]⟩
    · rw [if_neg hc]
      exact ⟨h, [], by simp⟩
  | complete fid ok =>
    cases hf : findFetch w.inflight fid with
    | none =>
      simp only [pstep, completeFetch, hf]
      exact ⟨h, [], by simp⟩
    | some g =>
      obtain ⟨h1, h2, h3⟩ := completeFetch_found ok h hf
      exact ⟨h1, h3⟩

lemma prun_append (w : PollerW) (l1 l2 : List PStep) :
    prun w (l1 ++ l2) = prun (prun w l1) l2 := by
  induction l1 generalizing w with
  | nil => rfl
  | cons s rest ih => simp [prun, ih]

lemma externalSafe_cons {w : PollerW} {s : PStep} {rest : List PStep}
    (h : externalSafe w (s :: rest) = true) :
    okExt w s = true ∧ externalSafe (pstep w s) rest = true := by
  simpa [externalSafe, Bool.and_eq_true] using h

lemma externalSafe_append {w : PollerW} {l1 l2 : List PStep}
    (h : externalSafe w (l1 ++ l2) = true) :
    externalSafe w l1 = true ∧ externalSafe (prun w l1) l2 = true := by
  induction l1 generalizing w with
  | nil => exact ⟨rfl, h⟩
  | cons s rest ih =>
    obtain ⟨h1, h2⟩ := externalSafe_cons h
    obtain ⟨ih1, ih2⟩ := ih h2
    exact ⟨by simp [externalSafe, h1, ih1], ih2⟩

lemma run_inv {w : PollerW} {steps : List PStep}
    (hs : externalSafe w steps = true) (hi : pollerInv w = true) :
    pollerInv (prun w steps) = true := by
  induction steps generalizing w with
  | nil => exact hi
  | cons s rest ih =>
    obtain ⟨h1, h2⟩ := externalSafe_cons hs
    exact ih h2 (pstep_inv hi h1).1

lemma pstep_internal_quiescent {w : PollerW} {s : PStep}
    (hq : quiescent w = true) (hs : isInternal s = true) : pstep w s = w := by
  simp only [quiescent, Bool.and_eq_true, List.isEmpty_iff] at hq
  cases s with
  | start => cases hs
  | stop => cases hs
  | reconfigure => cases hs
  | fire tid =>
    simp [pstep, fireTimer, hq.1]
  | complete fid ok =>
    simp [pstep, completeFetch, hq.2, findFetch]

lemma run_internal_quiescent {w : PollerW} {steps : List PStep}
    (hq : quiescent w = true) (hs : ∀ s ∈ steps, isInternal s = true) :
    prun w steps = w := by
  induction steps with
  | nil => rfl
  | cons s rest ih =>
    rw [prun, pstep_internal_quiescent hq (hs s (List.mem_cons_self s rest))]
    exact ih (fun s' h' => hs s' (List.mem_cons_of_mem s h'))

lemma run_gen_mono (w : PollerW) (steps : List PStep) :
    w.gen ≤ (prun w steps).gen := by
  induction steps generalizing w with
  | nil => exact le_refl _
  | cons s rest ih => exact le_trans (pstep_gen_mono w s) (ih (pstep w s))

lemma run_log_tail {w : PollerW} {steps : List PStep} {g0 : Nat}
    (hs : externalSafe w steps = true) (hi : pollerInv w = true)
    (hg : g0 ≤ w.gen) :
    ∃ tail, (prun w steps).log = w.log ++ tail ∧ ∀ e ∈ tail, g0 ≤ e.originGen := by
  induction steps generalizing w with
  | nil => exact ⟨[], by simp [prun]⟩
  | cons s rest ih =>
    obtain ⟨h1, h2⟩ := externalSafe_cons hs
    obtain ⟨hinv, t0, ht0, htag⟩ := pstep_inv hi h1
    obtain ⟨t1, ht1, htag1⟩ :=
      ih h2 hinv (le_trans hg (pstep_gen_mono w s))
    refine ⟨t0 ++ t1, ?_, ?_⟩
    · rw [prun, ht1, ht0, List.append_assoc]
    · intro e he
      rcases List.mem_append.mp he with h | h
      · rw [htag e h]; exact hg
      · exact htag1 e h

/-- C4 (amended).  Provided `start`, `stop` and `configure` are only called
while no fetch of this poller is in flight (and `start` only from an idle
poller), the poller keeps at most one pending timer or in-flight fetch at
every point, every in-flight fetch belongs to the current configuration;
after a `stop` followed only by timer/fetch steps the state never changes
(no timer is re-armed, no event delivered); and every event delivered after
a `configure` carries a generation at least the new one, so no event of the
old configuration is delivered after the restart.  Without that proviso the
counterexample applies: an in-flight fetch survives `stop`/`configure`,
still delivers old-configuration events and re-arms an extra timer. -/
theorem poller_lifecycle_under_idle_calls (steps : List PStep)
    (h : externalSafe initPoller steps = true) :
    pollerInv (prun initPoller steps) = true ∧
    (∀ t1 t2, steps = t1 ++ PStep.stop :: t2 → (∀ s ∈ t2, isInternal s = true) →
       prun initPoller steps = prun initPoller (t1 ++ [PStep.stop])) ∧
    (∀ t1 t2, steps = t1 ++ PStep.reconfigure :: t2 →
       ∃ tail, (prun initPoller steps).log
           = (prun initPoller (t1 ++ [PStep.reconfigure])).log ++ tail ∧
         ∀ e ∈ tail, (prun initPoller (t1 ++ [PStep.reconfigure])).gen ≤ e.originGen) := by
  have hinv0 : pollerInv initPoller = true := rfl
  refine ⟨run_inv h hinv0, ?_, ?_⟩
  · intro t1 t2 hsplit hint
    subst hsplit
    have hassoc : t1 ++ PStep.stop :: t2 = (t1 ++ [PStep.stop]) ++ t2 := by simp
    rw [hassoc, prun_append]
    rw [hassoc] at h
    obtain ⟨hs1, hs2⟩ := @externalSafe_append _ (t1 ++ [PStep.stop]) _ h
    obtain ⟨hs1a, hs1b⟩ := @externalSafe_append _ t1 _ hs1
    obtain ⟨hstopok, -⟩ := externalSafe_cons hs1b
    have hinv1 : pollerInv (prun initPoller t1) = true := run_inv hs1a hinv0
    have hq : quiescent (prun initPoller (t1 ++ [PStep.stop])) = true := by
      rw [prun_append]
      exact stopPoller_quiescent hinv1 (List.isEmpty_iff.mp hstopok)
    exact run_internal_quiescent hq hint
  · intro t1 t2 hsplit
    subst hsplit
    have hassoc : t1 ++ PStep.reconfigure :: t2 = (t1 ++ [PStep.reconfigure]) ++ t2 := by
      simp
    rw [hassoc, prun_append]
    rw [hassoc] at h
    obtain ⟨hs1, hs2⟩ := @externalSafe_append _ (t1 ++ [PStep.reconfigure]) _ h
    have hinv1 : pollerInv (prun initPoller (t1 ++ [PStep.reconfigure])) = true :=
      run_inv hs1 hinv0
    exact run_log_tail hs2 hinv1 (le_refl _)

/-- Witness for the amended C4 theorem: a start, one successful poll cycle,
one timer fire, one failed poll, then a stop, all under the idle-call
discipline. -/
theorem poller_lifecycle_witness :
    externalSafe initPoller
      [PStep.start, PStep.complete 0 true, PStep.fire 0, PStep.complete 1 false,
       PStep.stop] = true ∧
    pollerInv (prun initPoller
      [PStep.start, PStep.complete 0 true, PStep.fire 0, PStep.complete 1 false,
       PStep.stop]) = true := by
  have h := poller_lifecycle_under_idle_calls
    [PStep.start, PStep.complete 0 true, PStep.fire 0, PStep.complete 1 false,
     PStep.stop] (by decide)
  exact ⟨by decide, h.1⟩

/-! ## The Time-Series Store (storage.js, `StorageManager`)

IndexedDB is modelled by association lists ordered by the auto-incremented
primary key `id` (starting at 1).  `cleanupOldReadings` deletes through a
cursor over the store itself, i.e. in primary-key order;
`cleanupOldAlerts` deletes through a cursor over the `timestamp` index,
i.e. in (timestamp, id) order — the difference is the subject of the C6
refutation. -/

/-- `this.maxReadings` as set in the constructor. -/
def initMaxReadings : Nat := 10000

/-- `this.maxAlerts` as set in the constructor. -/
def initMaxAlerts : Nat := 500

structure ReadingsStore where
  nextId : Nat
  rows : List (Nat × Reading)

def emptyReadings : ReadingsStore := ⟨1, []⟩

/-- The record `saveReading` adds: the reading with
`timestamp: reading.timestamp || Date.now()`. -/
def readingRecord (now : ℤ) (r : Reading) : Reading :=
  { r with timestamp := jor r.timestamp (.num (.fin (now : ℚ))) }

/-- `StorageManager.cleanupOldReadings`: while the count exceeds the
ceiling, delete through a primary-key cursor, i.e. drop the rows with the
lowest ids (the front of the id-ordered row list). -/
def cleanupOldReadings (maxReadings : Nat) (st : ReadingsStore) : ReadingsStore :=
  if maxReadings < st.rows.length then
    { st with rows := st.rows.drop (st.rows.length - maxReadings) }
  else st

/-- `StorageManager.saveReading`: append with a fresh id, then clean up. -/
def saveReading (maxReadings : Nat) (now : ℤ) (st : ReadingsStore) (r : Reading) :
    ReadingsStore :=
  cleanupOldReadings maxReadings
    { nextId := st.nextId + 1, rows := st.rows ++ [(st.nextId, readingRecord now r)] }

def saveReadingAll (maxReadings : Nat) (st : ReadingsStore) :
    List (ℤ × Reading) → ReadingsStore :=
  List.foldl (fun st p => saveReading maxReadings p.1 st p.2) st

/-- The records the inserts would create, with their assigned ids. -/
def enrichReadings (startId : Nat) : List (ℤ × Reading) → List (Nat × Reading)
  | [] => []
  | (n, r) :: rest => (startId, readingRecord n r) :: enrichReadings (startId + 1) rest

lemma enrichReadings_length (startId : Nat) (l : List (ℤ × Reading)) :
    (enrichReadings startId l).length = l.length := by
  induction l generalizing startId with
  | nil => rfl
  | cons p rest ih =>
    obtain ⟨n, r⟩ := p
    simp [enrichReadings, ih]

lemma saveReadingAll_rows (maxReadings : Nat) (st : ReadingsStore)
    (inputs : List (ℤ × Reading)) (hst : st.rows.length ≤ maxReadings) :
    (saveReadingAll maxReadings st inputs).rows
      = (st.rows ++ enrichReadings st.nextId inputs).drop
          ((st.rows.length + inputs.length) - maxReadings) := by
  induction inputs generalizing st with
  | nil => simp [saveReadingAll, List.foldl, Nat.sub_eq_zero_of_le hst, enrichReadings]
  | cons p rest ih =>
    obtain ⟨n, r⟩ := p
    have hstep : saveReadingAll maxReadings st ((n, r) :: rest)
        = saveReadingAll maxReadings (saveReading maxReadings n st r) rest := rfl
    set st1 := saveReading maxReadings n st r with hst1
    have hrows1 : st1.rows
        = (st.rows ++ [(st.nextId, readingRecord n r)]).drop
            ((st.rows.length + 1) - maxReadings) := by
      rw [hst1]
      unfold saveReading cleanupOldReadings
      split
      · simp
      · next hle =>
        simp only [List.length_append, List.length_cons, List.length_nil] at hle
        have : st.rows.length + 1 - maxReadings = 0 := by omega
        simp [this]
    have hlen1 : st1.rows.length ≤ maxReadings := by
      rw [hrows1, List.length_drop]
      simp only [List.length_append, List.length_cons, List.length_nil]
      omega
    have hnext1 : st1.nextId = st.nextId + 1 := by
      rw [hst1]
      unfold saveReading cleanupOldReadings
      split <;> rfl
    rw [hstep, ih st1 hlen1, hrows1, hnext1]
    have hd : st.rows.length + 1 - maxReadings ≤
        (st.rows ++ [(st.nextId, readingRecord n r)]).length := by
      simp only [List.length_append, List.length_cons, List.length_nil]
      omega
    rw [List.length_drop, ← List.drop_append_of_le_length hd, List.drop_drop]
    rw [show st.rows ++ enrichReadings st.nextId ((n, r) :: rest)
        = (st.rows ++ [(st.nextId, readingRecord n r)]) ++ enrichReadings (st.nextId + 1) rest
      from by simp [enrichReadings]]
    congr 1
    simp only [List.length_append, List.length_cons, List.length_nil]
    omega

/-- C5.  Inserting `maxReadings + k` readings (any timestamps) into an
empty store leaves exactly `maxReadings` rows, and they are the most
recently inserted `maxReadings` (the first `k` by insertion order — lowest
store-assigned ids — are evicted, regardless of timestamps); the
constructor's ceiling is 10,000. -/
theorem store_eviction_keeps_most_recent (maxReadings k : Nat) (hk : 1 ≤ k)
    (inputs : List (ℤ × Reading)) (hlen : inputs.length = maxReadings + k) :
    (saveReadingAll maxReadings emptyReadings inputs).rows.length = maxReadings ∧
    (saveReadingAll maxReadings emptyReadings inputs).rows
      = (enrichReadings 1 inputs).drop k ∧
    initMaxReadings = 10000 := by
  have h := saveReadingAll_rows maxReadings emptyReadings inputs (by simp [emptyReadings])
  rw [show emptyReadings.rows = [] from rfl, show emptyReadings.nextId = 1 from rfl] at h
  simp only [List.length_nil, List.nil_append, Nat.zero_add] at h
  rw [hlen] at h
  have hk' : maxReadings + k - maxReadings = k := by omega
  rw [hk'] at h
  refine ⟨?_, h, rfl⟩
  rw [h, List.length_drop, enrichReadings_length, hlen]
  omega

/-- Witness for C5 at ceiling 2 and three inserts. -/
theorem store_eviction_keeps_most_recent_witness :
    (saveReadingAll 2 emptyReadings
      [(100, normalizeReading 7 []), (200, normalizeReading 7 []),
       (300, normalizeReading 7 [])]).rows.length = 2 :=
  (store_eviction_keeps_most_recent 2 1 (by decide)
    [(100, normalizeReading 7 []), (200, normalizeReading 7 []),
     (300, normalizeReading 7 [])] rfl).1

structure AlertsStore where
  nextId : Nat
  rows : List (Nat × Alert × Bool)
deriving DecidableEq

def emptyAlerts : AlertsStore := ⟨1, []⟩

/-- The record `saveAlert` adds: the alert with
`timestamp: alert.timestamp || Date.now()` and `acknowledged: false`. -/
def alertRecord (now : ℤ) (a : Alert) : Alert × Bool :=
  ({ a with timestamp := if a.timestamp = 0 then now else a.timestamp }, false)

/-- The iteration order of a cursor over the `timestamp` index: ascending
timestamp, ties broken by ascending primary key. -/
def tsIdLe (x y : Nat × Alert × Bool) : Prop :=
  x.2.1.timestamp < y.2.1.timestamp ∨
    (x.2.1.timestamp = y.2.1.timestamp ∧ x.1 ≤ y.1)

instance : DecidableRel tsIdLe := fun x y =>
  decidable_of_iff (x.2.1.timestamp < y.2.1.timestamp ∨
    (x.2.1.timestamp = y.2.1.timestamp ∧ x.1 ≤ y.1)) Iff.rfl

instance : IsTotal (Nat × Alert × Bool) tsIdLe :=
  ⟨fun x y => by unfold tsIdLe; omega⟩

instance : IsTrans (Nat × Alert × Bool) tsIdLe :=
  ⟨fun x y z hxy hyz => by unfold tsIdLe at *; omega⟩

/-- `StorageManager.cleanupOldAlerts`: while the count exceeds the ceiling,
delete through a cursor over the TIMESTAMP index — so the records with the
lowest (timestamp, id) leave first, not the lowest ids. -/
def cleanupOldAlerts (maxAlerts : Nat) (st : AlertsStore) : AlertsStore :=
  if maxAlerts < st.rows.length then
    let victims := (List.insertionSort tsIdLe st.rows).take (st.rows.length - maxAlerts)
    let victimIds := victims.map Prod.fst
    { st with rows := st.rows.filter (fun r => !(victimIds.contains r.1)) }
  else st

/-- `StorageManager.saveAlert`: append with a fresh id, then clean up. -/
def saveAlert (maxAlerts : Nat) (now : ℤ) (st : AlertsStore) (a : Alert) : AlertsStore :=
  cleanupOldAlerts maxAlerts
    { nextId := st.nextId + 1, rows := st.rows ++ [(st.nextId, alertRecord now a)] }

/-- Older-inserted alert with the newer timestamp. -/
def lateAlert : Alert := createAlert "WARNING" "High VOC Levels" "d1" "voc_high" 100

/-- Newer-inserted alert with the older timestamp. -/
def earlyAlert : Alert := createAlert "WARNING" "High CO₂ (MH-Z19C)" "d2" "co2_high" 50

/-- C6 counterexample.  With ceiling 1, insert an alert with timestamp 100
(id 1), then an alert with timestamp 50 (id 2).  The claim says the oldest
by insertion order — id 1 — is evicted, leaving id 2; the code iterates the
timestamp index, evicts the timestamp-50 record (id 2), and keeps id 1. -/
theorem alert_eviction_by_timestamp_counterexample :
    (saveAlert 1 0 (saveAlert 1 0 emptyAlerts lateAlert) earlyAlert).rows.map Prod.fst
      = [1] ∧
    ¬ (saveAlert 1 0 (saveAlert 1 0 emptyAlerts lateAlert) earlyAlert).rows.map Prod.fst
      = [2] := by
  constructor
  · rfl
  · decide

/-- What the alert cleanup actually does when the ceiling is exceeded:
keeps a count capped at the ceiling, preserves store order, and every
evicted record precedes every kept record in (timestamp, id) order. -/
lemma cleanupOldAlerts_spec (maxAlerts : Nat) (st : AlertsStore)
    (hnd : (st.rows.map Prod.fst).Nodup) :
    (cleanupOldAlerts maxAlerts st).rows.length = min st.rows.length maxAlerts ∧
    List.Sublist (cleanupOldAlerts maxAlerts st).rows st.rows ∧
    ∀ v ∈ st.rows, v ∉ (cleanupOldAlerts maxAlerts st).rows →
      ∀ s ∈ (cleanupOldAlerts maxAlerts st).rows, tsIdLe v s := by
  by_cases hlt : maxAlerts < st.rows.length
  case neg =>
    have heq : cleanupOldAlerts maxAlerts st = st := by
      unfold cleanupOldAlerts
      rw [if_neg hlt]
    rw [heq]
    refine ⟨by omega, List.Sublist.refl _, ?_⟩
    intro v hv hnv s hs
    exact absurd hv hnv
  case pos =>
    set m := st.rows.length - maxAlerts with hm
    set sorted := List.insertionSort tsIdLe st.rows with hsortdef
    set victims := sorted.take m with hvict
    set kept := st.rows.filter (fun r => !((victims.map Prod.fst).contains r.1)) with hkept
    have hrows : (cleanupOldAlerts maxAlerts st).rows = kept := by
      unfold cleanupOldAlerts
      rw [if_pos hlt]
    have hperm : sorted.Perm st.rows := List.perm_insertionSort _ _
    have hsort : List.Sorted tsIdLe sorted := List.sorted_insertionSort _ _
    have hndsorted : (sorted.map Prod.fst).Nodup :=
      (List.Perm.nodup_iff (hperm.map Prod.fst)).mpr hnd
    have hnds : sorted.Nodup := List.Nodup.of_map Prod.fst hndsorted
    have hsplit : victims ++ sorted.drop m = sorted := List.take_append_drop m sorted
    have hdisj : List.Disjoint victims (sorted.drop m) := by
      apply List.disjoint_of_nodup_append
      rw [hsplit]
      exact hnds
    have hinjs : ∀ x ∈ sorted, ∀ y ∈ sorted, x.1 = y.1 → x = y := by
      intro x hx y hy he
      exact List.inj_on_of_nodup_map hndsorted hx hy he
    have hkperm : kept.Perm (sorted.drop m) := by
      have h1 : kept.Perm (sorted.filter (fun r => !((victims.map Prod.fst).contains r.1))) :=
        (List.Perm.filter _ hperm).symm
      have h2 : sorted.filter (fun r => !((victims.map Prod.fst).contains r.1))
          = sorted.drop m := by
        conv_lhs => rw [← hsplit]
        rw [List.filter_append]
        have hv0 : victims.filter (fun r => !((victims.map Prod.fst).contains r.1)) = [] := by
          apply List.filter_eq_nil_iff.mpr
          intro v hv
          have hmem : v.1 ∈ victims.map Prod.fst := List.mem_map_of_mem Prod.fst hv
          simp [hmem]
        have hv1 : (sorted.drop m).filter (fun r => !((victims.map Prod.fst).contains r.1))
            = sorted.drop m := by
          apply List.filter_eq_self.mpr
          intro x hx
          have hnm : x.1 ∉ victims.map Prod.fst := by
            intro hmem
            obtain ⟨v, hvv, hvx⟩ := List.mem_map.mp hmem
            have hveq : v = x :=
              hinjs v (List.take_subset m sorted hvv) x (List.drop_subset m sorted hx) hvx
            exact hdisj (hveq ▸ hvv) hx
          simp [hnm]
        rw [hv0, hv1, List.nil_append]
      exact h2 ▸ h1
    rw [hrows]
    refine ⟨?_, List.filter_sublist _, ?_⟩
    · have hklen : kept.length = (sorted.drop m).length := hkperm.length_eq
      rw [hklen, List.length_drop, hperm.length_eq]
      omega
    · intro v hv hnv s hs
      have hvs : v ∈ sorted := hperm.mem_iff.mpr hv
      have hvv : v ∈ victims := by
        rcases List.mem_append.mp (by rw [hsplit]; exact hvs :
            v ∈ victims ++ sorted.drop m) with h | h
        · exact h
        · exact absurd (hkperm.mem_iff.mpr h) hnv
      have hsd : s ∈ sorted.drop m := hkperm.mem_iff.mp hs
      have hpw := List.pairwise_append.mp (by rw [hsplit]; exact hsort :
        List.Pairwise tsIdLe (victims ++ sorted.drop m))
      exact hpw.2.2 v hvv s hsd

/-- C6 (amended).  `saveAlert` appends and then, when the count exceeds the
ceiling, evicts the excess alerts that are oldest by TIMESTAMP (ties broken
by lowest store-assigned id), regardless of insertion order: the kept rows
are a ceiling-sized, order-preserving selection of the appended rows, and
every evicted record is no newer — by (timestamp, id) — than every kept
record.  The constructor's ceiling is 500. -/
theorem saveAlert_evicts_oldest_by_timestamp (maxAlerts : Nat) (now : ℤ)
    (st : AlertsStore) (a : Alert)
    (hnd : ((st.rows ++ [(st.nextId, alertRecord now a)]).map Prod.fst).Nodup) :
    (saveAlert maxAlerts now st a).rows.length = min (st.rows.length + 1) maxAlerts ∧
    List.Sublist (saveAlert maxAlerts now st a).rows
      (st.rows ++ [(st.nextId, alertRecord now a)]) ∧
    (∀ v ∈ st.rows ++ [(st.nextId, alertRecord now a)],
       v ∉ (saveAlert maxAlerts now st a).rows →
       ∀ s ∈ (saveAlert maxAlerts now st a).rows, tsIdLe v s) ∧
    initMaxAlerts = 500 := by
  have h := cleanupOldAlerts_spec maxAlerts
    ⟨st.nextId + 1, st.rows ++ [(st.nextId, alertRecord now a)]⟩ hnd
  obtain ⟨h1, h2, h3⟩ := h
  refine ⟨?_, h2, h3, rfl⟩
  simpa using h1

/-- Witness for the amended C6 theorem: ceiling 1, the id-1 row has the
newer timestamp; the kept row is id 1 (newest by timestamp), with the
evicted id-2 row older by timestamp than it. -/
theorem saveAlert_evicts_oldest_by_timestamp_witness :
    (saveAlert 1 0 (saveAlert 1 0 emptyAlerts lateAlert) earlyAlert).rows.length
      = min ((saveAlert 1 0 emptyAlerts lateAlert).rows.length + 1) 1 := by
  have h := saveAlert_evicts_oldest_by_timestamp 1 0
    (saveAlert 1 0 emptyAlerts lateAlert) earlyAlert (by decide)
  exact h.1

/-! ## The Trend Aggregator (trends.js, `TrendsManager`)

`getChartData` reads the store through `getReadingsLastHours`
(storage.js): an inclusive `[now - hours*3600000, now]` range query over the
timestamp index, returned in (timestamp, id) order; records whose timestamp
is not a finite number have no valid index key and are not returned. -/

def rowTs (row : Nat × Reading) : ℚ :=
  match row.2.timestamp with
  | .num (.fin q) => q
  | _ => 0

def inRange (s e : ℤ) (row : Nat × Reading) : Bool :=
  match row.2.timestamp with
  | .num (.fin q) => decide ((s : ℚ) ≤ q) && decide (q ≤ (e : ℚ))
  | _ => false

def rowLe (x y : Nat × Reading) : Prop :=
  rowTs x < rowTs y ∨ (rowTs x = rowTs y ∧ x.1 ≤ y.1)

instance : DecidableRel rowLe := fun x y =>
  decidable_of_iff (rowTs x < rowTs y ∨ (rowTs x = rowTs y ∧ x.1 ≤ y.1)) Iff.rfl

/-- `StorageManager.getReadings(startTime, endTime)`. -/
def getReadings (st : ReadingsStore) (s e : ℤ) : List Reading :=
  (List.insertionSort rowLe (st.rows.filter (inRange s e))).map Prod.snd

/-- `StorageManager.getReadingsLastHours(hours)`. -/
def getReadingsLastHours (st : ReadingsStore) (now : ℤ) (hours : ℤ) : List Reading :=
  getReadings st (now - hours * 3600000) now

/-- Statistics object of `TrendsManager.calculateStats`; `none` is `null`. -/
structure ChartStats where
  min : Option JNum
  max : Option JNum
  avg : Option JNum
  count : Nat
deriving DecidableEq

/-- The object `getChartData` returns.  `none` in an `Option` field means
the property is absent from the JS object (reads as `undefined`):
`timeRange`/`sensor` are present only on the computed (non-empty) path, and
`isEmpty` only on the empty path. -/
structure ChartData where
  points : List (JsVal × JsVal)
  values : List JsVal
  timestamps : List JsVal
  stats : ChartStats
  timeRange : Option String
  sensor : Option String
  isEmpty : Option Bool

/-- `this.timeRanges` of `TrendsManager` (hours per range key). -/
def timeRangesTrends (s : String) : Option ℤ :=
  if s = "1h" then some 1
  else if s = "24h" then some 24
  else if s = "7d" then some (24 * 7)
  else if s = "1m" then some (24 * 30)
  else none

/-- The per-sensor value extraction switch of `extractSensorData`; the
stored readings are normalized Readings, so every optional chain resolves.
The switch default leaves `value` at `null`. -/
def sensorValue (r : Reading) (sensor : String) : JsVal :=
  if sensor = "respiration" then r.respiration.value
  else if sensor = "bodyTemp" then r.bodyTemp.value
  else if sensor = "co2" then r.environment.co2.value
  else if sensor = "voc" then r.environment.voc.value
  else if sensor = "envTemp" then r.environment.temp.value
  else if sensor = "audioLevel" then r.audio.level
  else if sensor = "movement" then r.radar.movement
  else .null

/-- `TrendsManager.extractSensorData`: readings whose value is `null` or
`undefined` are skipped; the kept readings contribute, in order, a point
`(x, y)`, a value and a timestamp.  Returns (points, values, timestamps). -/
def extractSensorData (readings : List Reading) (sensor : String) :
    List (JsVal × JsVal) × List JsVal × List JsVal :=
  let sel := readings.filter (fun r => !(isNullish (sensorValue r sensor)))
  (sel.map (fun r => (r.timestamp, sensorValue r sensor)),
   sel.map (fun r => sensorValue r sensor),
   sel.map (fun r => r.timestamp))

def jnumAdd : JNum → JNum → JNum
  | .nan, _ => .nan
  | _, .nan => .nan
  | .inf, .neginf => .nan
  | .neginf, .inf => .nan
  | .inf, _ => .inf
  | _, .inf => .inf
  | .neginf, _ => .neginf
  | _, .neginf => .neginf
  | .fin p, .fin q => .fin (p + q)

def isStringish : JsVal → Bool
  | .str _ => true
  | .obj _ => true
  | _ => false

/-- The JS `+` operator: string concatenation when either operand converts
to a string primitive, numeric addition otherwise. -/
def jsAdd (a b : JsVal) : JsVal :=
  if isStringish a || isStringish b then .str (jshow a ++ jshow b)
  else .num (jnumAdd (toNum a) (toNum b))

/-- Division of the accumulated sum by the (positive) element count. -/
def jnumDivNat (a : JNum) (n : Nat) : JNum :=
  match a with
  | .fin q => .fin (q / n)
  | .nan => .nan
  | .inf => .inf
  | .neginf => .neginf

def jnumMin : JNum → JNum → JNum
  | .nan, _ => .nan
  | _, .nan => .nan
  | .neginf, _ => .neginf
  | _, .neginf => .neginf
  | .inf, y => y
  | x, .inf => x
  | .fin p, .fin q => .fin (min p q)

def jnumMax : JNum → JNum → JNum
  | .nan, _ => .nan
  | _, .nan => .nan
  | .inf, _ => .inf
  | _, .inf => .inf
  | .neginf, y => y
  | x, .neginf => x
  | .fin p, .fin q => .fin (max p q)

/-- `Math.min(...values)` (NaN-propagating, empty spread gives Infinity). -/
def jsMinList (l : List JsVal) : JNum :=
  l.foldl (fun acc v => jnumMin acc (toNum v)) .inf

/-- `Math.max(...values)`. -/
def jsMaxList (l : List JsVal) : JNum :=
  l.foldl (fun acc v => jnumMax acc (toNum v)) .neginf

/-- `Math.round(x * 100) / 100` (`Math.round` rounds half toward
positive infinity). -/
def round2 : JNum → JNum
  | .fin q => .fin ((⌊q * 100 + 1 / 2⌋ : ℤ) / (100 : ℚ))
  | .nan => .nan
  | .inf => .inf
  | .neginf => .neginf

/-- `TrendsManager.calculateStats(values)`. -/
def calculateStats (values : List JsVal) : ChartStats :=
  if values.length = 0 then ⟨none, none, none, 0⟩
  else
    let sum := values.foldl (fun acc v => jsAdd acc v) (JsVal.num (.fin 0))
    ⟨some (round2 (jsMinList values)), some (round2 (jsMaxList values)),
     some (round2 (jnumDivNat (toNum sum) values.length)), values.length⟩

/-- `TrendsManager.getEmptyData()`. -/
def getEmptyData : ChartData :=
  ⟨[], [], [], ⟨none, none, none, 0⟩, none, none, some true⟩

structure TrendsState where
  cachedData : List (String × ChartData)
  lastCacheTime : List (String × ℤ)

def emptyTrends : TrendsState := ⟨[], []⟩

/-- `this.cacheExpiry` (one minute). -/
def cacheExpiry : ℤ := 60000

def aget {α : Type} : List (String × α) → String → Option α
  | [], _ => none
  | (k, v) :: rest, f => if k = f then some v else aget rest f

def aset {α : Type} : List (String × α) → String → α → List (String × α)
  | [], k, v => [(k, v)]
  | (k', v') :: rest, k, v =>
    if k' = k then (k, v) :: rest else (k', v') :: aset rest k v

/-- The cache-miss path of `getChartData`: fetch the window, return
`getEmptyData()` WITHOUT caching when no readings are in it, otherwise
extract, compute statistics on the full series, and cache the result under
`cacheKey`. -/
def computeChartData (ts : TrendsState) (store : ReadingsStore) (now : ℤ)
    (sensor timeRange cacheKey : String) : ChartData × TrendsState :=
  let hours := (timeRangesTrends timeRange).getD 1
  let readings := getReadingsLastHours store now hours
  if readings.length = 0 then (getEmptyData, ts)
  else
    let data := extractSensorData readings sensor
    let stats := calculateStats data.2.1
    let result : ChartData :=
      { points := data.1, values := data.2.1, timestamps := data.2.2, stats := stats,
        timeRange := some timeRange, sensor := some sensor, isEmpty := none }
    (result,
     { cachedData := aset ts.cachedData cacheKey result,
       lastCacheTime := aset ts.lastCacheTime cacheKey now })

/-- `TrendsManager.getChartData(sensor, timeRange)`.  The cache test is
`this.cachedData[cacheKey] && now - this.lastCacheTime[cacheKey] <
this.cacheExpiry` (a result object is always truthy; a missing time makes
the comparison NaN, hence a miss). -/
def getChartData (ts : TrendsState) (store : ReadingsStore) (now : ℤ)
    (sensor timeRange : String) : ChartData × TrendsState :=
  let cacheKey := sensor ++ "_" ++ timeRange
  match aget ts.cachedData cacheKey, aget ts.lastCacheTime cacheKey with
  | some cached, some t =>
    if now - t < cacheExpiry then (cached, ts)
    else computeChartData ts store now sensor timeRange cacheKey
  | some _, none => computeChartData ts store now sensor timeRange cacheKey
  | none, _ => computeChartData ts store now sensor timeRange cacheKey

lemma getChartData_emptyTrends (store : ReadingsStore) (now : ℤ)
    (sensor timeRange : String) :
    getChartData emptyTrends store now sensor timeRange
      = computeChartData emptyTrends store now sensor timeRange
          (sensor ++ "_" ++ timeRange) := rfl

lemma calculateStats_count (values : List JsVal) :
    (calculateStats values).count = values.length := by
  unfold calculateStats
  split
  · next h => simp [h]
  · rfl

lemma round2_den {x : JNum} {q : ℚ} (h : round2 x = .fin q) : (q * 100).den = 1 := by
  cases x <;> simp [round2] at h
  case fin p =>
    subst h
    rw [div_mul_cancel₀ _ (show (100 : ℚ) ≠ 0 by norm_num)]
    exact Rat.den_intCast _

/-- Store for the C7 refutation: one normalized reading (all measurement
values `null`) at timestamp 500. -/
def c7store : ReadingsStore :=
  saveReading initMaxReadings 500 emptyReadings (normalizeReading 500 [])

/-- C7 counterexample: with readings in the window but no respiration
values, `getChartData` returns the computed-path object, which carries no
`isEmpty` property at all (it reads as `undefined`, not `true`), although
its statistics are null with count 0. -/
theorem getChartData_isEmpty_missing :
    ((getChartData emptyTrends c7store 1000 "respiration" "1h").1).isEmpty = none ∧
    ((getChartData emptyTrends c7store 1000 "respiration" "1h").1).values = [] ∧
    ((getChartData emptyTrends c7store 1000 "respiration" "1h").1).stats.count = 0 ∧
    ((getChartData emptyTrends c7store 1000 "respiration" "1h").1).stats.min = none ∧
    ¬ ((getChartData emptyTrends c7store 1000 "respiration" "1h").1).isEmpty = some true := by
  refine ⟨rfl, rfl, rfl, rfl, ?_⟩
  intro hcon
  have : (none : Option Bool) = some true := by
    rw [← hcon]
    rfl
  cases this

lemma calculateStats_min_den {values : List JsVal} {q : ℚ}
    (h : (calculateStats values).min = some (.fin q)) : (q * 100).den = 1 := by
  unfold calculateStats at h
  split at h
  · cases h
  · exact round2_den (by simpa using h)

lemma calculateStats_max_den {values : List JsVal} {q : ℚ}
    (h : (calculateStats values).max = some (.fin q)) : (q * 100).den = 1 := by
  unfold calculateStats at h
  split at h
  · cases h
  · exact round2_den (by simpa using h)

lemma calculateStats_avg_den {values : List JsVal} {q : ℚ}
    (h : (calculateStats values).avg = some (.fin q)) : (q * 100).den = 1 := by
  unfold calculateStats at h
  split at h
  · cases h
  · exact round2_den (by simpa using h)

/-- C7 (amended).  First computation (cold cache): `stats.count` equals the
number of extracted values; any finite `stats.min`, `stats.max` or
`stats.avg` is rounded to 2 decimal places (multiplying it by 100 yields an
integer); an empty readings window yields the `getEmptyData()` object with
null statistics, count 0 and `isEmpty = true`; but when readings exist and
none carries the sensor's value, the statistics are null with count 0 while
`isEmpty` is ABSENT (reads as `undefined`), not `true` — the computed-path
object never carries `isEmpty`. -/
theorem getChartData_stats_shape (store : ReadingsStore) (now : ℤ)
    (sensor timeRange : String) :
    ((getChartData emptyTrends store now sensor timeRange).1).stats.count
      = ((getChartData emptyTrends store now sensor timeRange).1).values.length ∧
    (∀ q : ℚ, ((getChartData emptyTrends store now sensor timeRange).1).stats.min
        = some (.fin q) → (q * 100).den = 1) ∧
    (∀ q : ℚ, ((getChartData emptyTrends store now sensor timeRange).1).stats.max
        = some (.fin q) → (q * 100).den = 1) ∧
    (∀ q : ℚ, ((getChartData emptyTrends store now sensor timeRange).1).stats.avg
        = some (.fin q) → (q * 100).den = 1) ∧
    (getReadingsLastHours store now ((timeRangesTrends timeRange).getD 1) = [] →
      (getChartData emptyTrends store now sensor timeRange).1 = getEmptyData) ∧
    (getReadingsLastHours store now ((timeRangesTrends timeRange).getD 1) ≠ [] →
      ((getChartData emptyTrends store now sensor timeRange).1).isEmpty = none ∧
      (((getChartData emptyTrends store now sensor timeRange).1).values = [] →
        ((getChartData emptyTrends store now sensor timeRange).1).stats
          = ⟨none, none, none, 0⟩)) := by
  rw [getChartData_emptyTrends]
  by_cases hemp :
      getReadingsLastHours store now ((timeRangesTrends timeRange).getD 1) = []
  · have heq : computeChartData emptyTrends store now sensor timeRange
        (sensor ++ "_" ++ timeRange) = (getEmptyData, emptyTrends) := by
      unfold computeChartData
      simp [hemp]
    rw [heq]
    refine ⟨rfl, ?_, ?_, ?_, fun _ => rfl, fun hne => absurd hemp hne⟩
    all_goals intro q hq; cases hq
  · have heq : (computeChartData emptyTrends store now sensor timeRange
        (sensor ++ "_" ++ timeRange)).1
        = { points := (extractSensorData (getReadingsLastHours store now
              ((timeRangesTrends timeRange).getD 1)) sensor).1,
            values := (extractSensorData (getReadingsLastHours store now
              ((timeRangesTrends timeRange).getD 1)) sensor).2.1,
            timestamps := (extractSensorData (getReadingsLastHours store now
              ((timeRangesTrends timeRange).getD 1)) sensor).2.2,
            stats := calculateStats (extractSensorData (getReadingsLastHours store now
              ((timeRangesTrends timeRange).getD 1)) sensor).2.1,
            timeRange := some timeRange, sensor := some sensor, isEmpty := none } := by
      unfold computeChartData
      rw [if_neg (by simpa [List.length_eq_zero] using hemp)]
    rw [heq]
    refine ⟨calculateStats_count _, fun q hq => calculateStats_min_den hq,
      fun q hq => calculateStats_max_den hq, fun q hq => calculateStats_avg_den hq,
      fun h0 => absurd h0 hemp, fun _ => ⟨rfl, ?_⟩⟩
    intro hval
    have hval2 : (extractSensorData (getReadingsLastHours store now
        ((timeRangesTrends timeRange).getD 1)) sensor).2.1 = [] := hval
    show calculateStats (extractSensorData (getReadingsLastHours store now
        ((timeRangesTrends timeRange).getD 1)) sensor).2.1 = ⟨none, none, none, 0⟩
    rw [hval2]
    rfl

/-- Witness for C7 at the null-value store: the window is non-empty yet the
extracted series is empty, so the statistics are null with `isEmpty`
absent. -/
theorem getChartData_stats_shape_witness :
    getReadingsLastHours c7store 1000 ((timeRangesTrends "1h").getD 1) ≠ [] ∧
    ((getChartData emptyTrends c7store 1000 "respiration" "1h").1).stats.count
      = ((getChartData emptyTrends c7store 1000 "respiration" "1h").1).values.length := by
  have h := getChartData_stats_shape c7store 1000 "respiration" "1h"
  refine ⟨?_, h.1⟩
  intro hcon
  have : ([] : List Reading).length = 1 := by
    conv_lhs => rw [← hcon]
    rfl
  cases this

/-- Store for the C8 scenario: one reading with a CO2 value of 800 ppm at
timestamp 500 (delivered in device-native numeric form). -/
def c8store : ReadingsStore :=
  saveReading initMaxReadings 500 emptyReadings
    (normalizeReading 500 [("environment", JsVal.obj [("co2", JsVal.num (JNum.fin 800))])])

/-- C8 counterexample.  A first call over an empty window returns
`getEmptyData()` WITHOUT caching it (the cache map stays empty), so a
second call with the same arguments 10 s later — well within the 60 s
TTL — does not return the first call's object: after a write it returns
the freshly computed, different result. -/
theorem getChartData_empty_result_not_cached :
    ((getChartData emptyTrends emptyReadings 0 "co2" "1h").1).isEmpty = some true ∧
    (getChartData emptyTrends emptyReadings 0 "co2" "1h").2.cachedData = [] ∧
    ((getChartData (getChartData emptyTrends emptyReadings 0 "co2" "1h").2 c8store 10000
        "co2" "1h").1).values = [JsVal.num (JNum.fin 800)] ∧
    ((getChartData (getChartData emptyTrends emptyReadings 0 "co2" "1h").2 c8store 10000
        "co2" "1h").1).isEmpty = none :=
  ⟨rfl, rfl, rfl, rfl⟩

lemma computeChartData_fst (ts ts' : TrendsState) (store : ReadingsStore) (now : ℤ)
    (sensor timeRange ck ck' : String) :
    (computeChartData ts store now sensor timeRange ck).1
      = (computeChartData ts' store now sensor timeRange ck').1 := by
  unfold computeChartData
  by_cases h :
      (getReadingsLastHours store now ((timeRangesTrends timeRange).getD 1)).length = 0
  · simp [h]
  · simp [h]

/-- C8 (amended).  When the first call (cold cache) finds readings in the
window — so its result IS cached — a second call with the same arguments
within the TTL returns exactly the cached object and leaves the cache
untouched, regardless of writes to the store in between; a call after the
TTL has elapsed recomputes from the store even if nothing changed.  (A
first call over an empty window is not cached, see the counterexample, so
the claim needs this non-empty proviso.) -/
theorem getChartData_cache_ttl (store1 store2 : ReadingsStore) (t1 t2 : ℤ)
    (sensor timeRange : String) (res1 : ChartData) (ts1 : TrendsState)
    (h1 : getChartData emptyTrends store1 t1 sensor timeRange = (res1, ts1))
    (hne : getReadingsLastHours store1 t1 ((timeRangesTrends timeRange).getD 1) ≠ []) :
    (t2 - t1 < cacheExpiry →
      getChartData ts1 store2 t2 sensor timeRange = (res1, ts1)) ∧
    (cacheExpiry ≤ t2 - t1 →
      (getChartData ts1 store2 t2 sensor timeRange).1
        = (getChartData emptyTrends store2 t2 sensor timeRange).1) := by
  have hlen : ¬ ((getReadingsLastHours store1 t1
      ((timeRangesTrends timeRange).getD 1)).length = 0) := by
    simpa [List.length_eq_zero] using hne
  rw [getChartData_emptyTrends] at h1
  have heq : computeChartData emptyTrends store1 t1 sensor timeRange
      (sensor ++ "_" ++ timeRange)
      = ((computeChartData emptyTrends store1 t1 sensor timeRange
            (sensor ++ "_" ++ timeRange)).1,
         { cachedData := [(sensor ++ "_" ++ timeRange,
             (computeChartData emptyTrends store1 t1 sensor timeRange
               (sensor ++ "_" ++ timeRange)).1)],
           lastCacheTime := [(sensor ++ "_" ++ timeRange, t1)] }) := by
    conv_lhs => unfold computeChartData
    rw [if_neg hlen]
    conv_rhs => rw [show (computeChartData emptyTrends store1 t1 sensor timeRange
      (sensor ++ "_" ++ timeRange)).1
        = { points := (extractSensorData (getReadingsLastHours store1 t1
              ((timeRangesTrends timeRange).getD 1)) sensor).1,
            values := (extractSensorData (getReadingsLastHours store1 t1
              ((timeRangesTrends timeRange).getD 1)) sensor).2.1,
            timestamps := (extractSensorData (getReadingsLastHours store1 t1
              ((timeRangesTrends timeRange).getD 1)) sensor).2.2,
            stats := calculateStats (extractSensorData (getReadingsLastHours store1 t1
              ((timeRangesTrends timeRange).getD 1)) sensor).2.1,
            timeRange := some timeRange, sensor := some sensor, isEmpty := none } from by
      conv_lhs => unfold computeChartData
      rw [if_neg hlen]]
    rfl
  rw [heq] at h1
  obtain ⟨hres, hts⟩ := Prod.mk.injEq .. |>.mp h1
  constructor
  · intro hlt
    unfold getChartData
    rw [← hts]
    simp only [← hres]
    simp [aget, hlt]
  · intro hge
    have hnlt : ¬ (t2 - t1 < cacheExpiry) := not_lt.mpr hge
    rw [getChartData_emptyTrends]
    unfold getChartData
    rw [← hts]
    simp only [← hres]
    simp [aget, hnlt]
    exact computeChartData_fst _ _ _ _ _ _ _ _

/-- Result and post-state of the first (cold) C8 call. -/
def c8res : ChartData := (getChartData emptyTrends c8store 1000 "co2" "1h").1

def c8ts : TrendsState := (getChartData emptyTrends c8store 1000 "co2" "1h").2

/-- Witness for C8: a second call 9 s after the first returns the cached
object unchanged. -/
theorem getChartData_cache_ttl_witness :
    getChartData c8ts c8store 10000 "co2" "1h" = (c8res, c8ts) := by
  have h := getChartData_cache_ttl c8store c8store 1000 10000 "co2" "1h" c8res c8ts rfl
    (by
      intro hc
      have : ([] : List Reading).length = 1 := by
        conv_lhs => rw [← hc]
        rfl
      cases this)
  exact h.1 (by decide)

/-- `Math.ceil(a / b)` on nonnegative integers (`b > 0`). -/
def ceilDiv (a b : ℕ) : ℕ := (a + b - 1) / b

/-- Indices visited by the source loop `for (let i = 0; i < n; i += s)`:
condition `i < n`, increment `i + s`.  The structural `fuel` argument only
bounds the iteration count; any `fuel ≥ n` is exact when `s ≥ 1` (the loop
runs at most `n` times then). -/
def jsLoopIdx (fuel : ℕ) (n s i : ℕ) : List ℕ :=
  match fuel with
  | 0 => []
  | f + 1 => if i < n then i :: jsLoopIdx f n s (i + s) else []

/-- `downsample(data, maxPoints)` of `TrendsManager`: if the series is small
enough it is returned as-is; otherwise `points[i]`, `values[i]`,
`timestamps[i]` are collected for `i = 0, step, 2·step, …` with
`step = Math.ceil(points.length / maxPoints)` (a JS out-of-range index
yields `undefined`), and all remaining fields — `stats` included — are
carried over unchanged by the object spread. -/
def downsample (data : ChartData) (maxPoints : ℕ) : ChartData :=
  if data.points.length ≤ maxPoints then data
  else
    { data with
      points := (jsLoopIdx data.points.length data.points.length
          (ceilDiv data.points.length maxPoints) 0).map
        (fun i => data.points.getD i (JsVal.undefVal, JsVal.undefVal))
      values := (jsLoopIdx data.points.length data.points.length
          (ceilDiv data.points.length maxPoints) 0).map
        (fun i => data.values.getD i JsVal.undefVal)
      timestamps := (jsLoopIdx data.points.length data.points.length
          (ceilDiv data.points.length maxPoints) 0).map
        (fun i => data.timestamps.getD i JsVal.undefVal) }

lemma ceilDiv_pos (n m : ℕ) (hn : 1 ≤ n) (hm : 1 ≤ m) : 1 ≤ ceilDiv n m := by
  unfold ceilDiv
  rw [Nat.le_div_iff_mul_le hm]
  omega

lemma ceilDiv_mul_ge (n m : ℕ) (hm : 1 ≤ m) : n ≤ ceilDiv n m * m := by
  unfold ceilDiv
  have h1 := Nat.div_add_mod (n + m - 1) m
  have h2 : (n + m - 1) % m < m := Nat.mod_lt _ (by omega)
  have h3 : (n + m - 1) / m * m = m * ((n + m - 1) / m) := Nat.mul_comm _ _
  omega

lemma ceilDiv_le (n s m : ℕ) (hs : 1 ≤ s) (hsm : n ≤ s * m) : ceilDiv n s ≤ m := by
  unfold ceilDiv
  by_contra hc
  push_neg at hc
  have h6 : s * (m + 1) ≤ s * ((n + s - 1) / s) := Nat.mul_le_mul_left s hc
  have h1 := Nat.div_add_mod (n + s - 1) s
  have h2 : (n + s - 1) % s < s := Nat.mod_lt _ (by omega)
  have h7 : s * (m + 1) = s * m + s := by ring
  omega

lemma mul_lt_of_lt_ceilDiv (n s i : ℕ) (hs : 1 ≤ s) (hi : i < ceilDiv n s) :
    i * s < n := by
  unfold ceilDiv at hi
  have h1 : (i + 1) * s ≤ (n + s - 1) / s * s := Nat.mul_le_mul_right s hi
  have h2 : (n + s - 1) / s * s ≤ n + s - 1 := Nat.div_mul_le_self _ _
  have h3 : (i + 1) * s = i * s + s := by ring
  omega

lemma jsLoopIdx_eq (s : ℕ) (hs : 1 ≤ s) :
    ∀ fuel n i, n - i ≤ fuel →
      jsLoopIdx fuel n s i = (List.range (ceilDiv (n - i) s)).map (fun k => i + k * s) := by
  intro fuel
  induction fuel with
  | zero =>
    intro n i hf
    have h0 : n - i = 0 := by omega
    rw [h0]
    have h1 : ceilDiv 0 s = 0 := by
      unfold ceilDiv
      exact Nat.div_eq_of_lt (by omega)
    rw [h1]
    rfl
  | succ f ih =>
    intro n i hf
    by_cases hin : i < n
    · show (if i < n then i :: jsLoopIdx f n s (i + s) else []) = _
      rw [if_pos hin, ih n (i + s) (by omega)]
      have hcd : ceilDiv (n - i) s = ceilDiv (n - (i + s)) s + 1 := by
        unfold ceilDiv
        have hrw : n - i + s - 1 = (n - i - 1) + s := by omega
        rw [hrw, Nat.add_div_right _ (by omega)]
        by_cases hle : n - i ≤ s
        · have h2 : n - (i + s) = 0 := by omega
          rw [h2]
          rw [Nat.div_eq_of_lt (show 0 + s - 1 < s by omega)]
          rw [Nat.div_eq_of_lt (show n - i - 1 < s by omega)]
        · have h2 : n - (i + s) + s - 1 = n - i - 1 := by omega
          rw [h2]
      rw [hcd, List.range_succ_eq_map, List.map_cons, List.map_map]
      congr 1
      · simp
      · refine List.map_congr_left ?_
        intro k _
        simp [Function.comp, Nat.succ_eq_add_one]
        ring
    · show (if i < n then i :: jsLoopIdx f n s (i + s) else []) = _
      rw [if_neg hin]
      have h0 : n - i = 0 := by omega
      rw [h0]
      have h1 : ceilDiv 0 s = 0 := by
        unfold ceilDiv
        exact Nat.div_eq_of_lt (by omega)
      rw [h1]
      rfl

/-- C9: with maxPoints ≥ 1, `downsample` returns the series unchanged when it
has at most maxPoints entries; otherwise it keeps exactly the entries at
indices 0, s, 2s, … with s = ceil(n/maxPoints), in order, at most maxPoints
of them, and the `stats` field (computed on the full series) together with
every other non-series field is unchanged by the sampling. -/
theorem downsample_spec (data : ChartData) (maxPoints : ℕ) (h : 1 ≤ maxPoints) :
    (data.points.length ≤ maxPoints → downsample data maxPoints = data) ∧
    (downsample data maxPoints).stats = data.stats ∧
    (downsample data maxPoints).timeRange = data.timeRange ∧
    (downsample data maxPoints).sensor = data.sensor ∧
    (downsample data maxPoints).isEmpty = data.isEmpty ∧
    (maxPoints < data.points.length →
      (downsample data maxPoints).points.length
          = ceilDiv data.points.length (ceilDiv data.points.length maxPoints) ∧
      (downsample data maxPoints).points.length ≤ maxPoints ∧
      (∀ i, i < (downsample data maxPoints).points.length →
        (downsample data maxPoints).points[i]?
          = data.points[i * ceilDiv data.points.length maxPoints]?) ∧
      (data.values.length = data.points.length →
        ∀ i, i < (downsample data maxPoints).points.length →
          (downsample data maxPoints).values[i]?
            = data.values[i * ceilDiv data.points.length maxPoints]?) ∧
      (data.timestamps.length = data.points.length →
        ∀ i, i < (downsample data maxPoints).points.length →
          (downsample data maxPoints).timestamps[i]?
            = data.timestamps[i * ceilDiv data.points.length maxPoints]?)) := by
  by_cases hle : data.points.length ≤ maxPoints
  · have hd : downsample data maxPoints = data := by
      unfold downsample
      rw [if_pos hle]
    exact ⟨fun _ => hd, by rw [hd], by rw [hd], by rw [hd], by rw [hd],
      fun hgt => absurd hgt (by omega)⟩
  · push_neg at hle
    have hn1 : 1 ≤ data.points.length := by omega
    have hs1 : 1 ≤ ceilDiv data.points.length maxPoints :=
      ceilDiv_pos _ _ hn1 h
    have hidx : jsLoopIdx data.points.length data.points.length
        (ceilDiv data.points.length maxPoints) 0
        = (List.range (ceilDiv data.points.length
            (ceilDiv data.points.length maxPoints))).map
          (fun k => k * ceilDiv data.points.length maxPoints) := by
      rw [jsLoopIdx_eq _ hs1 data.points.length data.points.length 0 (by omega)]
      simp
    have hdn : downsample data maxPoints = { data with
        points := ((List.range (ceilDiv data.points.length
            (ceilDiv data.points.length maxPoints))).map
          (fun k => k * ceilDiv data.points.length maxPoints)).map
          (fun i => data.points.getD i (JsVal.undefVal, JsVal.undefVal))
        values := ((List.range (ceilDiv data.points.length
            (ceilDiv data.points.length maxPoints))).map
          (fun k => k * ceilDiv data.points.length maxPoints)).map
          (fun i => data.values.getD i JsVal.undefVal)
        timestamps := ((List.range (ceilDiv data.points.length
            (ceilDiv data.points.length maxPoints))).map
          (fun k => k * ceilDiv data.points.length maxPoints)).map
          (fun i => data.timestamps.getD i JsVal.undefVal) } := by
      unfold downsample
      rw [if_neg (by omega), hidx]
    have hlen : (downsample data maxPoints).points.length
        = ceilDiv data.points.length (ceilDiv data.points.length maxPoints) := by
      rw [hdn]
      simp
    refine ⟨fun hc => absurd hc (by omega), by rw [hdn], by rw [hdn], by rw [hdn],
      by rw [hdn], fun _ => ⟨hlen, ?_, ?_, ?_, ?_⟩⟩
    · rw [hlen]
      exact ceilDiv_le _ _ _ hs1
        (by
          have := ceilDiv_mul_ge data.points.length maxPoints h
          omega)
    · intro i hi
      rw [hlen] at hi
      have him : i * ceilDiv data.points.length maxPoints < data.points.length :=
        mul_lt_of_lt_ceilDiv _ _ _ hs1 hi
      rw [hdn]
      simp only [List.map_map, List.getElem?_map, List.getElem?_range, hi, if_pos,
        Option.map_some', Function.comp]
      rw [List.getD_eq_getElem?_getD, List.getElem?_eq_getElem him]
      rfl
    · intro hlv i hi
      rw [hlen] at hi
      have him : i * ceilDiv data.points.length maxPoints < data.points.length :=
        mul_lt_of_lt_ceilDiv _ _ _ hs1 hi
      have himv : i * ceilDiv data.points.length maxPoints < data.values.length := by
        omega
      rw [hdn]
      simp only [List.map_map, List.getElem?_map, List.getElem?_range, hi, if_pos,
        Option.map_some', Function.comp]
      rw [List.getD_eq_getElem?_getD, List.getElem?_eq_getElem himv]
      rfl
    · intro hlt i hi
      rw [hlen] at hi
      have him : i * ceilDiv data.points.length maxPoints < data.points.length :=
        mul_lt_of_lt_ceilDiv _ _ _ hs1 hi
      have himt : i * ceilDiv data.points.length maxPoints < data.timestamps.length := by
        omega
      rw [hdn]
      simp only [List.map_map, List.getElem?_map, List.getElem?_range, hi, if_pos,
        Option.map_some', Function.comp]
      rw [List.getD_eq_getElem?_getD, List.getElem?_eq_getElem himt]
      rfl

/-- Five-point series with count 5: downsampling to 2 points keeps the
entries at indices 0 and 3 (step = ceil(5/2) = 3). -/
def c9data : ChartData :=
  ⟨[(JsVal.num (JNum.fin 1), JsVal.num (JNum.fin 10)),
    (JsVal.num (JNum.fin 2), JsVal.num (JNum.fin 20)),
    (JsVal.num (JNum.fin 3), JsVal.num (JNum.fin 30)),
    (JsVal.num (JNum.fin 4), JsVal.num (JNum.fin 40)),
    (JsVal.num (JNum.fin 5), JsVal.num (JNum.fin 50))],
   [JsVal.num (JNum.fin 10), JsVal.num (JNum.fin 20), JsVal.num (JNum.fin 30),
    JsVal.num (JNum.fin 40), JsVal.num (JNum.fin 50)],
   [JsVal.num (JNum.fin 1), JsVal.num (JNum.fin 2), JsVal.num (JNum.fin 3),
    JsVal.num (JNum.fin 4), JsVal.num (JNum.fin 5)],
   ⟨none, none, none, 5⟩, some "24h", some "co2", none⟩

/-- Witness for C9 on the five-point series with maxPoints = 2. -/
theorem downsample_spec_witness :
    (1 : ℕ) ≤ 2 ∧
    (downsample c9data 2).points.length ≤ 2 ∧
    (downsample c9data 2).values
        = [JsVal.num (JNum.fin 10), JsVal.num (JNum.fin 40)] ∧
    (downsample c9data 2).stats = c9data.stats := by
  have hmain := downsample_spec c9data 2 (by decide)
  exact ⟨by decide, (hmain.2.2.2.2.2 (by decide)).2.1, rfl, hmain.2.1⟩

end Nurthure
